import Mathlib

/-!
Verification of the Fritzing Gerber generator core
(src/src/svg/gerbergenerator.cpp) against its natural-language
specification. The C++ code is shallowly embedded: QString values become
Lean String, QDomElement trees become the Elem inductive, doubles become
exact rationals, and the external rendering backend (QSvgRenderer) is
passed in as an explicit bounds function. Definitions translated from
code that is not part of this repository snapshot (TextUtils,
svgpathregex, GraphicsUtils constants) carry a doc comment starting
with the words Modelled from the spec.
-/

namespace Gerber

/-! ## String helpers (QString operations used by the generator) -/

/-- Does the character list start with the given pattern list
(QString startsWith on exact characters)? -/
def listStartsWith : List Char → List Char → Bool
  | _, [] => true
  | [], _ :: _ => false
  | a :: as, b :: bs => (a = b) && listStartsWith as bs

/-- Does the character list contain the pattern as a contiguous sublist
(QString contains, case sensitive)? -/
def listContainsSub : List Char → List Char → Bool
  | [], pat => listStartsWith [] pat
  | a :: rest, pat => listStartsWith (a :: rest) pat || listContainsSub rest pat

/-- QString contains, case sensitive. -/
def strContainsS (hay pat : String) : Bool :=
  listContainsSub hay.toList pat.toList

/-- QString contains with Qt CaseInsensitive, via upper-casing both sides. -/
def ciContains (hay pat : String) : Bool :=
  listContainsSub (hay.toList.map Char.toUpper) (pat.toList.map Char.toUpper)

/-- QString startsWith, case sensitive. -/
def strStartsWith (s pat : String) : Bool :=
  listStartsWith s.toList pat.toList

/-- Whitespace characters for QString trimmed. -/
def isWS (c : Char) : Bool :=
  c = ' ' || c = '\t' || c = '\n' || c = '\r'

/-- QString trimmed: strip leading and trailing whitespace. -/
def trimS (s : String) : String :=
  String.mk (((s.toList.dropWhile isWS).reverse.dropWhile isWS).reverse)

/-! ## Pick-and-place mount-technology classification
(gerbergenerator.cpp lines 966-999, free function checkMountTechnology) -/

/-- The package names that require through-hole placement unless marked
leadless (gerbergenerator.cpp lines 981-984). -/
def knownTHTPackages : List String :=
  ["DIP", "TO-3", "TO-5", "TO-8", "TO-18", "TO-66", "TO-72",
   "TO-92", "TO92", "TO-99", "TO-100", "TO-126", "TO-218", "TO-220",
   "TO220", "TO-247", "TO-252", "TO-257", "TO-258", "TO-264",
   "PFM", "DIL", "ZIP", "SIP"]

/-- checkMountTechnology (gerbergenerator.cpp lines 966-999): classify a
package string as MANUAL, THT or SMT. The C++ loop returns at the first
known-THT package contained in the string; the returned value does not
depend on which one matched, so the loop is rendered as a search. -/
def checkMountTechnology (package : String) : String :=
  if package = "" then "MANUAL"
  else if ciContains package "THT" then "THT"
  else if ciContains package "SMD" then "SMT"
  else
    match knownTHTPackages.find? (fun kw => ciContains package kw) with
    | some _ => if ciContains package "LEADLESS" then "SMT" else "THT"
    | none => "SMT"

/-! ## The vector-document data model

A QDomDocument is a tree of elements; each element has a tag name, an
attribute map and ordered children. Attribute values are either strings
or exact numbers (the generator writes numeric attributes through
QString number formatting; numbers are modelled exactly as rationals).
-/

/-- An attribute value: a string or a number. -/
inductive AVal where
  | s (v : String)
  | q (v : ℚ)
deriving DecidableEq

/-- A DOM element: tag name, attributes, ordered children. -/
inductive Elem where
  | mk (tag : String) (attrs : List (String × AVal)) (children : List Elem)

def Elem.tag : Elem → String
  | .mk t _ _ => t

def Elem.attrs : Elem → List (String × AVal)
  | .mk _ a _ => a

def Elem.children : Elem → List Elem
  | .mk _ _ c => c

/-- Look up an attribute by name. -/
def lookupAttr (l : List (String × AVal)) (n : String) : Option AVal :=
  (l.find? (fun p => decide (p.1 = n))).map (fun p => p.2)

def Elem.attr? (e : Elem) (n : String) : Option AVal :=
  lookupAttr e.attrs n

/-- Qt toDouble on a full string: optional sign, digits, optional decimal
part; anything else (including the null string) parses to 0. -/
def parseDigits (l : List Char) : ℕ :=
  l.foldl (fun acc c => acc * 10 + (c.toNat - 48)) 0

def parseQD (str : String) : ℚ :=
  let l := (trimS str).toList
  let sign : ℚ := match l with
    | '-' :: _ => -1
    | _ => 1
  let l1 := match l with
    | '-' :: rest => rest
    | '+' :: rest => rest
    | _ => l
  let intPart := l1.takeWhile Char.isDigit
  let rest1 := l1.dropWhile Char.isDigit
  match rest1 with
  | [] => if intPart = [] then 0 else sign * parseDigits intPart
  | '.' :: fracRest =>
    let fracPart := fracRest.takeWhile Char.isDigit
    let rest2 := fracRest.dropWhile Char.isDigit
    if rest2 = [] ∧ (intPart ≠ [] ∨ fracPart ≠ []) then
      sign * ((parseDigits intPart : ℚ) + (parseDigits fracPart : ℚ) / (10 ^ fracPart.length))
    else 0
  | _ => 0

/-- The string value of an attribute; a numeric attribute read as a string
is not exercised by the generator (only id, stroke-dasharray, transform
and partID are read as strings), so it is rendered as the null string. -/
def avalToStr : AVal → String
  | .s v => v
  | .q _ => ""

/-- QDomElement attribute(name): the null string when absent. -/
def Elem.strAttr (e : Elem) (n : String) : String :=
  match e.attr? n with
  | some v => avalToStr v
  | none => ""

def avalToQ : AVal → ℚ
  | .q v => v
  | .s v => parseQD v

/-- QDomElement attribute(name).toDouble(): 0 when absent or unparsable. -/
def Elem.numAttr (e : Elem) (n : String) : ℚ :=
  match e.attr? n with
  | some v => avalToQ v
  | none => 0

/-- QDomElement setAttribute: replace in place, or append when new. -/
def setAttrL (l : List (String × AVal)) (n : String) (v : AVal) : List (String × AVal) :=
  if (l.find? (fun p => decide (p.1 = n))).isSome then
    l.map (fun p => if p.1 = n then (n, v) else p)
  else l ++ [(n, v)]

/-- QDomElement removeAttribute. -/
def removeAttrL (l : List (String × AVal)) (n : String) : List (String × AVal) :=
  l.filter (fun p => decide (p.1 ≠ n))

/-! ## Squashing

Squashing retags an element to the non-rendering container tag g while
preserving its attributes and children (spec section 3; used throughout
clipToBoard). squashT retags every element of the tree satisfying the
predicate; anyT reports whether any element satisfies it. The
predicates used by the generator read only the tag and attributes of an
element, and squashT applies the predicate to each node as it stands in
the input tree. -/

mutual

def squashT (p : Elem → Bool) : Elem → Elem
  | .mk t a c => .mk (if p (.mk t a c) then "g" else t) a (squashL p c)

def squashL (p : Elem → Bool) : List Elem → List Elem
  | [] => []
  | e :: rest => squashT p e :: squashL p rest

end

mutual

def anyT (p : Elem → Bool) : Elem → Bool
  | .mk t a c => p (.mk t a c) || anyL p c

def anyL (p : Elem → Bool) : List Elem → Bool
  | [] => false
  | e :: rest => anyT p e || anyL p rest

end

/-- TextUtils squashElement as the generator uses it: retag every element
matching the predicate, and report whether any matched.
Modelled from the spec: TextUtils is not under src/; per spec section 3
and the glossary, squashing retags an element to a non-rendering
container while preserving identity and children, and the cleaner squash
steps report whether any squash occurred. -/
def squashElem (p : Elem → Bool) (e : Elem) : Elem × Bool :=
  (squashT p e, anyT p e)

/-! Preorder views of a tree, used to state what a pass changed. -/

mutual

def nodesT : Elem → List Elem
  | .mk t a c => .mk t a c :: nodesL c

def nodesL : List Elem → List Elem
  | [] => []
  | e :: rest => nodesT e ++ nodesL rest

end

/-- The preorder list of tag names. -/
def tagsT (e : Elem) : List String :=
  (nodesT e).map Elem.tag

/-- The preorder list of attribute maps. -/
def attrsT (e : Elem) : List (List (String × AVal)) :=
  (nodesT e).map Elem.attrs

/-! ## clipToBoard: excluding pure drill holes from non-drill layers
(gerbergenerator.cpp lines 393-408) -/

/-- The purpose tag SVG2gerber::ForWhy passed through clipToBoard. -/
inductive ForWhy where
  | forCopper
  | forMask
  | forSilk
  | forOutline
  | forDrill
deriving DecidableEq

/-- The condition of gerbergenerator.cpp lines 397-403: a circle whose id
contains the non-connector marker (FSvgRenderer::NonConnectorName, kept
as a parameter) and whose stroke-width attribute parses to 0. -/
def justHolesMatch (marker : String) (e : Elem) : Bool :=
  decide (e.tag = "circle") && strContainsS (e.strAttr "id") marker
    && decide (e.numAttr "stroke-width" = 0)

/-- Lines 393-408 of clipToBoard: for every purpose except the drill
layer, retag each matching circle to g before the conversion passes run;
for the drill layer the document is left alone. -/
def justHolesPass (marker : String) (fw : ForWhy) (doc : Elem) : Elem :=
  if fw = .forDrill then doc else squashT (justHolesMatch marker) doc

/-! ## clipToBoard phase A: the analytic bounds clip
(gerbergenerator.cpp lines 534-554) and the board-edge hole rescue
(lines 557-593) -/

/-- An axis-aligned rectangle (QRectF) in StandardFritzingDPI space. -/
structure Rect where
  left : ℚ
  top : ℚ
  right : ℚ
  bottom : ℚ
deriving DecidableEq

/-- The empirically chosen clip tolerance, 0.1 (named unknownMargin in the
source, lines 541 and 579). -/
def unknownMargin : ℚ := 1 / 10

/-- The squash condition of lines 542 and 580: the mapped bounds lie
strictly beyond the board rectangle expanded by the tolerance on some
side. -/
def outsideBoard (m : Rect) (b : Rect) : Bool :=
  decide (m.left < b.left - unknownMargin) || decide (m.top < b.top - unknownMargin)
    || decide (m.right > b.right + unknownMargin)
    || decide (m.bottom > b.bottom + unknownMargin)

/-- setTagName g: retag an element to the non-rendering container. -/
def retagG (e : Elem) : Elem :=
  .mk "g" e.attrs e.children

/-- Lines 540-552 for one leaf: given the element and its mapped rendered
bounds, squash it exactly when the bounds are outside the board; the
Bool reports whether it was squashed. -/
def phaseAStep (board : Rect) (eb : Elem × Rect) : Elem × Bool :=
  if outsideBoard eb.2 board then (retagG eb.1, true) else (eb.1, false)

def Rect.mkCircle (cx cy r : ℚ) : Rect :=
  ⟨cx - r, cy - r, cx + r, cy + r⟩

/-- Modelled from the spec: the rendering backend bounds query
(QSvgRenderer boundsOnElement, an out-of-scope collaborator) applied to
a circle element carrying no transform, as the drill-hole circles of the
rescue pass do: the geometric square of side 2r around the center. -/
def circleBounds (e : Elem) : Rect :=
  Rect.mkCircle (e.numAttr "cx") (e.numAttr "cy") (e.numAttr "r")

/-- The id given to the ix-th rescue clone (line 565). -/
def holeId (ix : ℕ) : String :=
  "__" ++ toString ix ++ "__"

/-- Lines 561-568: clone the squashed circle without children, set the
synthetic id, zero the stroke width, reduce the radius by half the
original stroke width, and retag the clone to circle. -/
def insetClone (ix : ℕ) (e : Elem) : Elem :=
  let r := e.numAttr "r"
  let sw := e.numAttr "stroke-width"
  Elem.mk "circle"
    (setAttrL (setAttrL (setAttrL e.attrs "id" (.s (holeId ix)))
      "stroke-width" (.q 0)) "r" (.q (r - sw / 2))) []

/-- Lines 573-592 for one clone: retest the inset clone against the board
bounds with the same tolerance; remove it when still outside, otherwise
keep it with its radius enlarged by 4 and stroke-width 2. -/
def rescueHole (board : Rect) (ix : ℕ) (e : Elem) : Option Elem :=
  let clone := insetClone ix e
  if outsideBoard (circleBounds clone) board then none
  else
    let radius := clone.numAttr "r"
    some (Elem.mk "circle"
      (setAttrL (setAttrL clone.attrs "r" (.q (radius + 4))) "stroke-width" (.q 2)) [])

/-- Lines 534-593 assembled over the leaf list (the source runs this
phase only when the purpose is not the outline layer): squash every
out-of-bounds leaf, collect the squashed circles as hole candidates in
order, and keep the rescue clones that pass the inset retest. Returns
the processed leaves and the surviving clones. -/
def clipPhaseA (board : Rect) (leaves : List (Elem × Rect)) : List Elem × List Elem :=
  let processed := leaves.map (fun eb => (phaseAStep board eb).1)
  let holes := (leaves.filter (fun eb =>
    outsideBoard eb.2 board && decide (eb.1.tag = "circle"))).map (fun eb => eb.1)
  let clones := (holes.enum.map (fun p => rescueHole board p.1 p.2)).reduceOption
  (processed, clones)

/-- A plain circle element with center, radius and stroke width, as the
drill layer draws holes. -/
def plainCircle (cx cy r sw : ℚ) : Elem :=
  Elem.mk "circle" [("cx", .q cx), ("cy", .q cy), ("r", .q r), ("stroke-width", .q sw)] []

/-- The attribute state a surviving rescue clone ends with. -/
def rescuedCircle (cx cy r : ℚ) (ix : ℕ) : Elem :=
  Elem.mk "circle" [("cx", .q cx), ("cy", .q cy), ("r", .q r),
    ("stroke-width", .q 2), ("id", .s (holeId ix))] []

/-! ## dealWithMultipleContours: outline contour splitting
(gerbergenerator.cpp lines 899-962) -/

/-- QString split on a one-character separator, keeping empty parts. -/
def splitZChars : List Char → List (List Char)
  | [] => [[]]
  | c :: rest =>
    if c = 'z' || c = 'Z' then [] :: splitZChars rest
    else
      match splitZChars rest with
      | [] => [[c]]
      | h :: t => (c :: h) :: t

/-- split("z", Qt SkipEmptyParts, Qt CaseInsensitive) applied to path
data (lines 912 and 936). -/
def subpathsOf (d : String) : List String :=
  ((splitZChars d.toList).map String.mk).filter (fun s => decide (s ≠ ""))

/-- Modelled from the spec: the MultipleZs pattern of svgpathregex (not
under src/) — path data holding more than one contour-close marker. -/
def hasMultipleZs (d : String) : Bool :=
  decide (2 ≤ d.toList.countP (fun c => c = 'z' || c = 'Z'))

/-- startsWith("m", Qt CaseInsensitive) (line 914). -/
def startsWithMC (s : String) : Bool :=
  match s.toList with
  | c :: _ => c = 'm' || c = 'M'
  | [] => false

/-- startsWith("m", Qt CaseSensitive) (line 946). -/
def headIsLowerM (s : String) : Bool :=
  match s.toList with
  | c :: _ => c = 'm'
  | [] => false

/-- endsWith("z", Qt CaseInsensitive) (line 942). -/
def endsWithZci (s : String) : Bool :=
  match s.toList.getLast? with
  | some c => c = 'z' || c = 'Z'
  | none => false

def isNumChar (c : Char) : Bool :=
  c.isDigit || c = '.' || c = '-'

def isSepChar (c : Char) : Bool :=
  isWS c || c = ','

/-- Modelled from the spec: the MFinder pattern of svgpathregex (not
under src/) — the first move command with its coordinate pair: the
letter m or M, then separators, a number token, separators and a second
number token; the letter and the two tokens are the captures. -/
def mFinderC : List Char → Option (Char × List Char × List Char)
  | [] => none
  | c :: rest =>
    if c = 'm' || c = 'M' then
      let r1 := rest.dropWhile isSepChar
      let n1 := r1.takeWhile isNumChar
      let r2 := (r1.dropWhile isNumChar).dropWhile isSepChar
      let n2 := r2.takeWhile isNumChar
      if n1 ≠ [] ∧ n2 ≠ [] then some (c, n1, n2) else mFinderC rest
    else mFinderC rest

def mFinderS (s : String) : Option (Char × String × String) :=
  (mFinderC s.toList).map (fun t => (t.1, String.mk t.2.1, String.mk t.2.2))

/-- captured(1) + captured(2) + "," + captured(3) + " " for a successful
move match. -/
def moveChunk (c : Char) (n1 n2 : String) : String :=
  String.mk [c] ++ n1 ++ "," ++ n2 ++ " "

/-- Line 939: the initial priorM string; the captures of a failed match
are null strings. -/
def capsConcat : Option (Char × String × String) → String
  | some (c, n1, n2) => moveChunk c n1 n2
  | none => ", "

/-- Lines 949-953: an absolute move replaces priorM, a relative move (or
a failed capture) is appended to it. -/
def updatePrior (prior : String) : Option (Char × String × String) → String
  | some (c, n1, n2) =>
    if c = 'M' then moveChunk c n1 n2 else prior ++ moveChunk c n1 n2
  | none => prior ++ ", "

/-- Lines 940-956: build the d attribute of each appended sibling path.
Each subpath is trimmed and reclosed (the last one only when the
original data ended with a close marker), the prior move is prepended
when the subpath starts with a lower-case relative move, and priorM is
threaded through the captures of each subjoint move match (taken before
the prepend, as in the source). -/
def expandLoop (origEndsZ : Bool) : String → List String → List String
  | _, [] => []
  | prior, sub :: rest =>
    let zstr : String := if rest = [] then (if origEndsZ then "z" else "") else "z"
    let dpre := trimS sub ++ zstr
    let caps := mFinderS dpre
    let dfin := if headIsLowerM dpre then prior ++ dpre else dpre
    dfin :: expandLoop origEndsZ (updatePrior prior caps) rest

/-- Lines 932-958 for one path element: a path whose data has multiple
close markers is rewritten to its first subpath (reclosed, line 957)
and one sibling path per remaining subpath is appended. The source
reads subpaths.at(0) unconditionally; on data whose split leaves no
subpath at all that read is out of bounds, so the embedding returns the
element unchanged there. -/
def expandContours (d : String) : List String :=
  if hasMultipleZs (trimS d) then
    match subpathsOf d with
    | [] => [d]
    | s0 :: rest =>
      (s0 ++ "z") ::
        expandLoop (endsWithZci (trimS d)) (capsConcat (mFinderS (trimS s0))) rest
  else [d]

/-- The outcome of dealWithMultipleContours: its return value, whether
the malformed-cutout message was displayed, and the d attributes of the
path elements afterwards. -/
structure ContourResult where
  result : Bool
  malformedMsg : Bool
  paths : List String

/-- Line 913-918 for one path: every subpath must start with a move. -/
def contoursOKFor (d : String) : Bool :=
  (subpathsOf d).all (fun sp => startsWithMC (trimS sp))

/-- dealWithMultipleContours (lines 899-962) over the d attributes of
the path elements in document order. The scan loop of lines 906-919
stops at the first offending subpath; stopping early does not change
either boolean it computes, so they are folded as any/all. Siblings
appended by the rewrite loop carry at most one close marker, so the
live node list growing under the loop adds only paths the multiple-Zs
test skips. -/
def dealWithMultipleContours (ds : List String) : ContourResult :=
  let multipleContours := ds.any (fun d => hasMultipleZs (trimS d))
  let contoursOK := ds.all (fun d => !hasMultipleZs (trimS d) || contoursOKFor d)
  if !multipleContours then ⟨false, false, ds⟩
  else if !contoursOK then ⟨false, true, ds⟩
  else ⟨true, false, ds.flatMap expandContours⟩

/-! ## The cleaning pass of clipToBoard
(gerbergenerator.cpp lines 421-487): squash every construct the Gerber
conversion cannot take. -/

/-- squashElement on a bare tag (text, ellipse, image). -/
def matchTag (tag : String) (e : Elem) : Bool :=
  decide (e.tag = tag)

/-- squashElement on a tag with an attribute present (rect rx, rect ry);
the null pattern matches any value. -/
def matchTagAttr (tag attrName : String) (e : Elem) : Bool :=
  decide (e.tag = tag) && (e.attr? attrName).isSome

/-- squashElement on stroke-dasharray with the pattern of lines 440-451,
which matches every value that does not start with the word none. -/
def matchDash (tag : String) (e : Elem) : Bool :=
  decide (e.tag = tag) &&
    (match e.attr? "stroke-dasharray" with
     | some (.s v) => !strStartsWith v "none"
     | some (.q _) => true
     | none => false)

/-- Modelled from the spec: the AaCc pattern of svgpathregex (not under
src/) — path data holding a curve command letter. -/
def hasCurveCmd (d : String) : Bool :=
  d.toList.any (fun c => c = 'A' || c = 'a' || c = 'C' || c = 'c')

/-- Line 455: squash paths whose d attribute holds a curve command. -/
def matchCurve (e : Elem) : Bool :=
  decide (e.tag = "path") && (e.attr? "d").isSome && hasCurveCmd (e.strAttr "d")

/-- Line 460: squash paths whose d attribute holds multiple close
markers. -/
def matchMultiZ (e : Elem) : Bool :=
  decide (e.tag = "path") && (e.attr? "d").isSome && hasMultipleZs (e.strAttr "d")

/-! Lines 470-487: squash every path that has a scaling transform on
itself or on an ancestor. The transform parser lives in TextUtils
(outside src/), so the scaling test on a transform attribute string is a
parameter isSc. -/

/-- Has this element, or some ancestor (anc), a scaling transform
attribute (lines 473-483)? -/
def transformScaled (isSc : String → Bool) (anc : Bool) (a : List (String × AVal)) : Bool :=
  anc || (match lookupAttr a "transform" with
    | some v => isSc (avalToStr v)
    | none => false)

mutual

def scaledPathsT (isSc : String → Bool) (anc : Bool) : Elem → Elem
  | .mk t a c =>
    .mk (if decide (t = "path") && transformScaled isSc anc a then "g" else t) a
      (scaledPathsL isSc (transformScaled isSc anc a) c)

def scaledPathsL (isSc : String → Bool) (anc : Bool) : List Elem → List Elem
  | [] => []
  | e :: rest => scaledPathsT isSc anc e :: scaledPathsL isSc anc rest

end

mutual

def scaledAnyT (isSc : String → Bool) (anc : Bool) : Elem → Bool
  | .mk t a c =>
    (decide (t = "path") && transformScaled isSc anc a)
      || scaledAnyL isSc (transformScaled isSc anc a) c

def scaledAnyL (isSc : String → Bool) (anc : Bool) : List Elem → Bool
  | [] => false
  | e :: rest => scaledAnyT isSc anc e || scaledAnyL isSc anc rest

end

/-- The cleaning pass, lines 421-487 in source order: text, ellipse,
rect with rx, rect with ry, dashed rect, dashed circle, dashed line,
curved path, multi-contour path, image, then scaled paths. Returns the
cleaned document and whether anything was squashed (anyConverted). -/
def cleanPass (isSc : String → Bool) (e : Elem) : Elem × Bool :=
  let s1 := squashElem (matchTag "text") e
  let s2 := squashElem (matchTag "ellipse") s1.1
  let s3 := squashElem (matchTagAttr "rect" "rx") s2.1
  let s4 := squashElem (matchTagAttr "rect" "ry") s3.1
  let s5 := squashElem (matchDash "rect") s4.1
  let s6 := squashElem (matchDash "circle") s5.1
  let s7 := squashElem (matchDash "line") s6.1
  let s8 := squashElem matchCurve s7.1
  let s9 := squashElem matchMultiZ s8.1
  let s10 := squashElem (matchTag "image") s9.1
  (scaledPathsT isSc false s10.1,
   s1.2 || s2.2 || s3.2 || s4.2 || s5.2 || s6.2 || s7.2 || s8.2 || s9.2 || s10.2
     || scaledAnyT isSc false s10.1)

/-- The Gerber-safe condition of the claim for one element: no text,
ellipse or image; rects without rx, ry or a non-none dash; circles and
lines without a non-none dash; paths without curve commands or multiple
close markers. -/
def safeElem (e : Elem) : Bool :=
  decide (e.tag ≠ "text") && decide (e.tag ≠ "ellipse") && decide (e.tag ≠ "image") &&
  (!decide (e.tag = "rect")
    || ((e.attr? "rx").isNone && (e.attr? "ry").isNone && dashOK e)) &&
  (!decide (e.tag = "circle") || dashOK e) &&
  (!decide (e.tag = "line") || dashOK e) &&
  (!decide (e.tag = "path")
    || (!hasCurveCmd (e.strAttr "d") && !hasMultipleZs (e.strAttr "d")))
where
  dashOK (e : Elem) : Bool :=
    match e.attr? "stroke-dasharray" with
    | none => true
    | some (.s v) => decide (v = "none")
    | some (.q _) => false

mutual

/-- The claim's Gerber-safe condition for a whole document: every
element is safe and no path sits under a scaling transform. -/
def gerberSafeT (isSc : String → Bool) (anc : Bool) : Elem → Bool
  | .mk t a c =>
    safeElem (.mk t a c) && (!decide (t = "path") || !transformScaled isSc anc a)
      && gerberSafeL isSc (transformScaled isSc anc a) c

def gerberSafeL (isSc : String → Bool) (anc : Bool) : List Elem → Bool
  | [] => true
  | e :: rest => gerberSafeT isSc anc e && gerberSafeL isSc anc rest

end

/-- A concrete all-safe document: a rect, a circle with dash none, a
line and a straight single-contour path. -/
def safeDoc : Elem :=
  .mk "svg" [("width", .s "100"), ("height", .s "100")]
    [.mk "rect" [("x", .q 1), ("y", .q 1), ("width", .q 5), ("height", .q 5)] [],
     .mk "g" [] [
       .mk "circle" [("cx", .q 3), ("cy", .q 3), ("r", .q 2),
         ("stroke-dasharray", .s "none")] [],
       .mk "line" [("x1", .q 0), ("x2", .q 1)] [],
       .mk "path" [("d", .s "M0,0 L5,5z")] []]]

/-! ## The raster-fallback render-retry loop
(gerbergenerator.cpp lines 708-743): render repeatedly, hash each image,
stop at the first hash already seen, give up after the bound. The
renderer and the content hash are abstract: render i is the image the
i-th render produces, hf its hash. -/

/-- The while(true) loop of lines 716-741, with explicit fuel standing
for the unbounded iteration: render at the current counter, hash, look
the hash up in the map (hashMap.value returns the stored image); on a
miss insert and stop with the image just rendered once the counter has
reached 5, else advance the counter. -/
def renderLoopAux {α β : Type} [DecidableEq β] (render : ℕ → α) (hf : α → β) :
    ℕ → ℕ → List (β × α) → Option α
  | 0, _, _ => none
  | fuel + 1, counter, seen =>
    let img := render counter
    let hh := hf img
    match seen.find? (fun p => decide (p.1 = hh)) with
    | some p => some p.2
    | none =>
      if 5 ≤ counter then some img
      else renderLoopAux render hf fuel (counter + 1) ((hh, img) :: seen)

/-- The loop started as the source starts it: counter 0, empty hash map.
Fuel 7 is enough for every path through the loop. -/
def renderLoop {α β : Type} [DecidableEq β] (render : ℕ → α) (hf : α → β) : Option α :=
  renderLoopAux render hf 7 0 []

/-- The first repeated hash among renders 0..5, as the spec words the
policy: the smallest j whose hash equals the hash of some earlier i,
together with the smallest such i. -/
def firstRepeatPair {β : Type} [DecidableEq β] (hs : ℕ → β) : Option (ℕ × ℕ) :=
  match (List.range 6).find? (fun j => (List.range j).any (fun i => decide (hs i = hs j))) with
  | some j =>
    match (List.range j).find? (fun i => decide (hs i = hs j)) with
    | some i => some (i, j)
    | none => none
  | none => none

/-- The reliability policy the spec describes: accept the stored image
of the first repeated hash, else the last (sixth) image rendered. -/
def retryPolicy {α β : Type} [DecidableEq β] (render : ℕ → α) (hf : α → β) : α :=
  match firstRepeatPair (fun i => hf (render i)) with
  | some (i, _) => render i
  | none => render 5

/-- The hash map as it stands when the loop reaches a given counter:
one entry per earlier render, most recent first. -/
def buildSeen {α β : Type} (render : ℕ → α) (hf : α → β) (c : ℕ) : List (β × α) :=
  ((List.range c).map (fun i => (hf (render i), render i))).reverse

/-! ## handleDonuts (gerbergenerator.cpp lines 1098-1166): replace a
donut connector path by a plain circle. -/

/-- Modelled from the spec: GraphicsUtils::StandardFritzingDPI (not
under src/) — the fixed 1000 dots-per-inch output resolution; rendered
documents and the pick-and-place file use thousandths of an inch. -/
def standardFritzingDPI : ℚ := 1000

/-- Modelled from the spec: GraphicsUtils::SVGDPI (not under src/) —
the 90 dots-per-inch SVG source resolution of the scene geometry. -/
def svgDPI : ℚ := 90

/-- A connector registered in the TreatAsCircle set: its svg id
(SvgIdLayer m_svgId), the id of the part it is attached to
(attachedToID, the key of the multi-hash), and its radius and stroke
width in scene units. -/
structure Connector where
  svgId : String
  partID : ℕ
  radius : ℚ
  strokeWidth : ℚ

/-- Qt toLong on a digits-only string, 0 otherwise (applied to the
partID attribute at line 1127). -/
def parseNatD (s : String) : ℕ :=
  if s ≠ "" ∧ s.toList.all Char.isDigit then parseDigits s.toList else 0

/-- Lines 1122-1140: walk the ancestors of a path (their partID
attribute values, nearest first); skip ancestors without a partID, stop
the walk at an ancestor whose partID has no registered connectors, and
return the registered connector whose svg id matches the path id. -/
def findConnector (treat : List Connector) (id : String) : List String → Option Connector
  | [] => none
  | pid :: rest =>
    if pid = "" then findConnector treat id rest
    else
      let items := treat.filter (fun c => decide (c.partID = parseNatD pid))
      if items.isEmpty then none
      else
        match items.find? (fun c => decide (c.svgId = id)) with
        | some c => some c
        | none => findConnector treat id rest

/-- Lines 1155-1162: the circle created for a donut connector, placed
at the center of the rendered bounds of its path, with the connector
radius and stroke width converted from SVG resolution to the standard
Fritzing output resolution. -/
def donutCircleElem (conn : Connector) (b : Rect) (id : String) : Elem :=
  Elem.mk "circle"
    [("id", .s id),
     ("cx", .q ((b.left + b.right) / 2)),
     ("cy", .q ((b.top + b.bottom) / 2)),
     ("r", .q (conn.radius * standardFritzingDPI / svgDPI)),
     ("stroke-width", .q (conn.strokeWidth * standardFritzingDPI / svgDPI))] []

/-- Line 1153: after the bounds query the path loses its id and keeps
everything else. -/
def stripId (e : Elem) : Elem :=
  .mk e.tag (removeAttrL e.attrs "id") e.children

mutual

/-- handleDonuts over the tree, carrying the partID attribute values of
the ancestors, nearest first. A path whose non-null id is registered
(lines 1113-1119) and whose connector the ancestor walk finds gets the
replacement circle inserted before it (line 1156) and loses its id; the
rendered bounds of the path come from the abstract renderer. -/
def handleDonutsE (treat : List Connector) (bounds : Elem → Rect) (anc : List String) :
    Elem → Elem
  | .mk t a c =>
    .mk t a (handleDonutsL treat bounds ((match lookupAttr a "partID" with
      | some v => avalToStr v
      | none => "") :: anc) c)

def handleDonutsL (treat : List Connector) (bounds : Elem → Rect) (anc : List String) :
    List Elem → List Elem
  | [] => []
  | e :: rest =>
    (if decide (e.tag = "path") && decide (e.strAttr "id" ≠ "")
        && (treat.map (fun c => c.svgId)).contains (e.strAttr "id") then
      match findConnector treat (e.strAttr "id") anc with
      | some conn => [donutCircleElem conn (bounds e) (e.strAttr "id"), stripId e]
      | none => [handleDonutsE treat bounds anc e]
    else [handleDonutsE treat bounds anc e]) ++ handleDonutsL treat bounds anc rest

end

/-- handleDonuts entry (line 1104): nothing changes when the
TreatAsCircle set is empty. -/
def handleDonuts (treat : List Connector) (bounds : Elem → Rect) (root : Elem) : Elem :=
  if treat.isEmpty then root else handleDonutsE treat bounds [] root

/-! ## The export pipeline
(exportToGerber, gerbergenerator.cpp lines 80-162, with the per-layer
helpers doCopper, doSilk, doDrill, doMask, doPasteMask, lines 164-329).
Rendering, mask expansion, paste-mask synthesis, clipping and file
opening are external effects; an environment records the outcome each
of them would report for each layer, and the model replays the control
flow of the source over it. The pick-and-place pass (line 95) writes an
independent file first and carries no empty-layer notion, so it is not
part of this model. -/

inductive GLayer where
  | copper0
  | copper1
  | mask0
  | mask1
  | paste0
  | paste1
  | silkTop
  | silkBottom
  | outline
  | drill
deriving DecidableEq

inductive Msg where
  | emptyLayer (l : GLayer)
  | clipFailure (l : GLayer)
  | expandFailure (l : GLayer)
  | saveFailure (l : GLayer)
  | curveSummary
deriving DecidableEq

/-- The outcomes of the external effects, per layer: renderTo reported
empty (or an empty string), TextUtils expandAndFill came back empty,
makePasteMask came back empty, clipToBoard came back empty, the output
file could not be opened, and the invalid count SVG2gerber convert
returns. The two silk flags record whether the respective layer-id
lists contain ViewLayer::Silkscreen1 (the lists come from
ViewLayer::silkLayers, outside src/). -/
structure ExportEnv where
  boardLayers : ℕ
  renderEmpty : GLayer → Bool
  expandEmpty : GLayer → Bool
  pasteMakeEmpty : GLayer → Bool
  clipEmpty : GLayer → Bool
  saveFail : GLayer → Bool
  invalid : GLayer → ℕ
  silkTopHasSilkscreen1 : Bool
  silkBottomHasSilkscreen1 : Bool

/-- What one per-layer helper produced: its messages, the file it wrote
(by layer), and the invalid count it returned. -/
structure StepOut where
  msgs : List Msg
  file : Option GLayer
  invalidCount : ℕ

/-- saveEnd (lines 343-359): a message on open failure, else the file. -/
def saveEndM (env : ExportEnv) (l : GLayer) : List Msg × Option GLayer :=
  if env.saveFail l then ([.saveFailure l], none) else ([], some l)

/-- doEnd (lines 331-341): convert, then save; the invalid count is
returned regardless of the save outcome. -/
def doEndM (env : ExportEnv) (l : GLayer) : StepOut :=
  ⟨(saveEndM env l).1, (saveEndM env l).2, env.invalid l⟩

/-- doCopper (lines 164-192). -/
def doCopperM (env : ExportEnv) (l : GLayer) : StepOut :=
  if env.renderEmpty l then ⟨[.emptyLayer l], none, 0⟩
  else if env.clipEmpty l then ⟨[.clipFailure l], none, 0⟩
  else doEndM env l

/-- doMask (lines 264-297): render, expandAndFill, clip, convert. -/
def doMaskM (env : ExportEnv) (l : GLayer) : StepOut :=
  if env.renderEmpty l then ⟨[.emptyLayer l], none, 0⟩
  else if env.expandEmpty l then ⟨[.expandFailure l], none, 0⟩
  else if env.clipEmpty l then ⟨[.clipFailure l], none, 0⟩
  else doEndM env l

/-- doPasteMask (lines 299-329): an empty makePasteMask result returns
silently (line 318). -/
def doPasteMaskM (env : ExportEnv) (l : GLayer) : StepOut :=
  if env.renderEmpty l then ⟨[.emptyLayer l], none, 0⟩
  else if env.pasteMakeEmpty l then ⟨[], none, 0⟩
  else if env.clipEmpty l then ⟨[.clipFailure l], none, 0⟩
  else doEndM env l

/-- doSilk (lines 195-229): the empty-render message is shown only when
the layer-id list holds the top silkscreen id (line 201). -/
def doSilkM (env : ExportEnv) (l : GLayer) (hasSilkscreen1 : Bool) : StepOut :=
  if env.renderEmpty l then ⟨if hasSilkscreen1 then [.emptyLayer l] else [], none, 0⟩
  else if env.clipEmpty l then ⟨[.clipFailure l], none, 0⟩
  else doEndM env l

/-- doDrill (lines 232-262). -/
def doDrillM (env : ExportEnv) : StepOut :=
  if env.renderEmpty .drill then ⟨[.emptyLayer .drill], none, 0⟩
  else if env.clipEmpty .drill then ⟨[.clipFailure .drill], none, 0⟩
  else doEndM env .drill

/-- exportToGerber (lines 80-162): copper, mask, paste mask and silk in
order, top variants only for a two-layer board, then the outline. An
empty outline render reports its message and returns at line 133 —
before the contour file, before doDrill and before the final summary.
Otherwise the contour is saved, the drill layer runs, and the summary
message is shown when any layer converted approximately (line 151). -/
def exportToGerberM (env : ExportEnv) : List Msg × List GLayer :=
  let c0 := doCopperM env .copper0
  let c1 := if env.boardLayers = 2 then doCopperM env .copper1 else ⟨[], none, 0⟩
  let m0 := doMaskM env .mask0
  let m1 := if env.boardLayers = 2 then doMaskM env .mask1 else ⟨[], none, 0⟩
  let p0 := doPasteMaskM env .paste0
  let p1 := if env.boardLayers = 2 then doPasteMaskM env .paste1 else ⟨[], none, 0⟩
  let s1 := doSilkM env .silkTop env.silkTopHasSilkscreen1
  let s0 := doSilkM env .silkBottom env.silkBottomHasSilkscreen1
  let preMsgs := c0.msgs ++ c1.msgs ++ m0.msgs ++ m1.msgs ++ p0.msgs ++ p1.msgs
    ++ s1.msgs ++ s0.msgs
  let preFiles := [c0.file, c1.file, m0.file, m1.file, p0.file, p1.file,
    s1.file, s0.file].reduceOption
  if env.renderEmpty .outline then
    (preMsgs ++ [.emptyLayer .outline], preFiles)
  else
    let oSave := saveEndM env .outline
    let d := doDrillM env
    let summary : List Msg :=
      if 0 < env.invalid .outline ∨ 0 < s1.invalidCount + s0.invalidCount
          ∨ 0 < c0.invalidCount + c1.invalidCount
          ∨ 0 < m0.invalidCount + m1.invalidCount
          ∨ 0 < p0.invalidCount + p1.invalidCount then [.curveSummary] else []
    (preMsgs ++ oSave.1 ++ d.msgs ++ summary,
     preFiles ++ oSave.2.toList ++ d.file.toList)

/-- The amended condition under which a layer's file is written. -/
def fileCond (env : ExportEnv) : GLayer → Bool
  | .copper0 => !env.renderEmpty .copper0 && !env.clipEmpty .copper0
      && !env.saveFail .copper0
  | .copper1 => decide (env.boardLayers = 2) && !env.renderEmpty .copper1
      && !env.clipEmpty .copper1 && !env.saveFail .copper1
  | .mask0 => !env.renderEmpty .mask0 && !env.expandEmpty .mask0
      && !env.clipEmpty .mask0 && !env.saveFail .mask0
  | .mask1 => decide (env.boardLayers = 2) && !env.renderEmpty .mask1
      && !env.expandEmpty .mask1 && !env.clipEmpty .mask1 && !env.saveFail .mask1
  | .paste0 => !env.renderEmpty .paste0 && !env.pasteMakeEmpty .paste0
      && !env.clipEmpty .paste0 && !env.saveFail .paste0
  | .paste1 => decide (env.boardLayers = 2) && !env.renderEmpty .paste1
      && !env.pasteMakeEmpty .paste1 && !env.clipEmpty .paste1 && !env.saveFail .paste1
  | .silkTop => !env.renderEmpty .silkTop && !env.clipEmpty .silkTop
      && !env.saveFail .silkTop
  | .silkBottom => !env.renderEmpty .silkBottom && !env.clipEmpty .silkBottom
      && !env.saveFail .silkBottom
  | .outline => !env.renderEmpty .outline && !env.saveFail .outline
  | .drill => !env.renderEmpty .outline && !env.renderEmpty .drill
      && !env.clipEmpty .drill && !env.saveFail .drill

/-- The amended condition under which the empty-layer diagnostic of a
layer appears. -/
def emptyMsgCond (env : ExportEnv) : GLayer → Bool
  | .copper0 => env.renderEmpty .copper0
  | .copper1 => decide (env.boardLayers = 2) && env.renderEmpty .copper1
  | .mask0 => env.renderEmpty .mask0
  | .mask1 => decide (env.boardLayers = 2) && env.renderEmpty .mask1
  | .paste0 => env.renderEmpty .paste0
  | .paste1 => decide (env.boardLayers = 2) && env.renderEmpty .paste1
  | .silkTop => env.renderEmpty .silkTop && env.silkTopHasSilkscreen1
  | .silkBottom => env.renderEmpty .silkBottom && env.silkBottomHasSilkscreen1
  | .outline => env.renderEmpty .outline
  | .drill => !env.renderEmpty .outline && env.renderEmpty .drill

/-- A concrete environment in which every stage succeeds except that
the outline layer renders empty. -/
def outlineEmptyEnv : ExportEnv :=
  ⟨2, fun l => decide (l = .outline), fun _ => false, fun _ => false,
   fun _ => false, fun _ => false, fun _ => 0, true, true⟩

end Gerber

namespace Gerber

/-! ## Helper lemmas on the tree model -/

mutual

theorem tagsT_squashT (p : Elem → Bool) :
    (e : Elem) → tagsT (squashT p e)
      = (nodesT e).map (fun x => if p x then "g" else x.tag)
  | .mk t a c => by
    simp only [tagsT, squashT, nodesT, List.map_cons, Elem.tag]
    exact congrArg _ (tagsL_squashL p c)

theorem tagsL_squashL (p : Elem → Bool) :
    (l : List Elem) → (nodesL (squashL p l)).map Elem.tag
      = (nodesL l).map (fun x => if p x then "g" else x.tag)
  | [] => by simp [squashL, nodesL]
  | e :: rest => by
    simp only [squashL, nodesL, List.map_append]
    rw [← tagsT, tagsT_squashT p e, tagsL_squashL p rest]

end

mutual

theorem attrsT_squashT (p : Elem → Bool) :
    (e : Elem) → attrsT (squashT p e) = attrsT e
  | .mk t a c => by
    simp only [attrsT, squashT, nodesT, List.map_cons, Elem.attrs]
    exact congrArg _ (attrsL_squashL p c)

theorem attrsL_squashL (p : Elem → Bool) :
    (l : List Elem) → (nodesL (squashL p l)).map Elem.attrs
      = (nodesL l).map Elem.attrs
  | [] => by simp [squashL, nodesL]
  | e :: rest => by
    simp only [squashL, nodesL, List.map_append]
    rw [← attrsT, attrsT_squashT p e, ← attrsT, attrsL_squashL p rest]

end

/-- C10: for every clip purpose other than the drill layer, each circle
whose id contains the non-connector marker and whose stroke-width parses
to 0 is retagged to the non-rendering tag g by the pre-pass, every other
element keeps its tag, all attributes are untouched, and all non-drill
purposes act identically; for the drill layer the document is returned
unchanged. -/
theorem justHolesPass_spec (marker : String) (fw : ForWhy) (doc : Elem) :
    justHolesPass marker .forDrill doc = doc ∧
    tagsT (justHolesPass marker .forCopper doc)
      = (nodesT doc).map (fun x => if justHolesMatch marker x then "g" else x.tag) ∧
    attrsT (justHolesPass marker .forCopper doc) = attrsT doc ∧
    (fw = .forDrill ∨ justHolesPass marker fw doc = justHolesPass marker .forCopper doc) := by
  refine ⟨rfl, ?_, ?_, ?_⟩
  · simpa [justHolesPass] using tagsT_squashT (justHolesMatch marker) doc
  · simpa [justHolesPass] using attrsT_squashT (justHolesMatch marker) doc
  · cases fw <;> simp [justHolesPass]

/-- C5: in clip phase A a leaf is squashed to the non-rendering tag g
exactly when its transformed bounds exceed the board rectangle by
strictly more than the tolerance margin on some side; bounds exceeding
every side by exactly the margin are kept, and bounds exceeding one side
by any amount above the margin are squashed. -/
theorem phaseAStep_tolerance (board b : Rect) (e : Elem) (d : ℚ) :
    ((phaseAStep board (e, b)).2 = true ↔
      (b.left < board.left - unknownMargin ∨ b.top < board.top - unknownMargin ∨
       b.right > board.right + unknownMargin ∨ b.bottom > board.bottom + unknownMargin)) ∧
    (phaseAStep board (e, b)).1 = (if outsideBoard b board then retagG e else e) ∧
    phaseAStep board (e, ⟨board.left - unknownMargin, board.top - unknownMargin,
      board.right + unknownMargin, board.bottom + unknownMargin⟩) = (e, false) ∧
    (unknownMargin < d →
      phaseAStep board (e, ⟨board.left, board.top, board.right + d, board.bottom⟩)
        = (retagG e, true)) := by
  have houts : ∀ m : Rect, outsideBoard m board = true ↔
      (m.left < board.left - unknownMargin ∨ m.top < board.top - unknownMargin ∨
       m.right > board.right + unknownMargin ∨ m.bottom > board.bottom + unknownMargin) := by
    intro m
    simp [outsideBoard, or_assoc]
  refine ⟨?_, ?_, ?_, ?_⟩
  · constructor
    · intro h
      by_cases hc : outsideBoard b board = true
      · exact (houts b).mp hc
      · exfalso
        simp only [phaseAStep] at h
        rw [if_neg hc] at h
        simp at h
    · intro h
      simp [phaseAStep, (houts b).mpr h]
  · by_cases hc : outsideBoard b board = true
    · simp [phaseAStep, hc]
    · replace hc : outsideBoard b board = false := by simpa using hc
      simp [phaseAStep, hc]
  · have : outsideBoard ⟨board.left - unknownMargin, board.top - unknownMargin,
        board.right + unknownMargin, board.bottom + unknownMargin⟩ board = false := by
      simp [outsideBoard]
    simp [phaseAStep, this]
  · intro hd
    have : outsideBoard ⟨board.left, board.top, board.right + d, board.bottom⟩ board = true := by
      rw [houts]
      right; right; left
      show board.right + d > board.right + unknownMargin
      linarith
    simp [phaseAStep, this]

/-- C4: a circle leaf whose bounds lie outside the board is squashed and
a rescue clone is made: the clone has the radius reduced by half the
stroke width and survives exactly when the reduced circle lies within
the board expanded by the tolerance; a surviving clone keeps the center,
carries radius (r - sw/2) + 4 and stroke-width 2. Survival is therefore
decided by the inset retest, not by comparing the straddle against the
radius. -/
theorem clipPhaseA_holeRescue (board b : Rect) (cx cy r sw : ℚ) :
    rescueHole board 0 (plainCircle cx cy r sw)
      = (if outsideBoard (Rect.mkCircle cx cy (r - sw / 2)) board then none
         else some (rescuedCircle cx cy (r - sw / 2 + 4) 0)) ∧
    clipPhaseA board [(plainCircle cx cy r sw, b)]
      = (if outsideBoard b board
         then ([retagG (plainCircle cx cy r sw)],
               (rescueHole board 0 (plainCircle cx cy r sw)).toList)
         else ([plainCircle cx cy r sw], [])) := by
  constructor
  · have hbc : circleBounds (insetClone 0 (plainCircle cx cy r sw))
        = Rect.mkCircle cx cy (r - sw / 2) := by
      simp [circleBounds, insetClone, plainCircle, Elem.numAttr, Elem.attr?, Elem.attrs,
        lookupAttr, setAttrL, List.find?, avalToQ]
    by_cases hc : outsideBoard (Rect.mkCircle cx cy (r - sw / 2)) board = true
    · simp only [rescueHole, hbc, hc, if_true]
    · replace hc : outsideBoard (Rect.mkCircle cx cy (r - sw / 2)) board = false := by
        simpa using hc
      simp only [rescueHole, hbc, hc, Bool.false_eq_true, if_false]
      simp [insetClone, plainCircle, rescuedCircle, Elem.numAttr, Elem.attr?, Elem.attrs,
        lookupAttr, setAttrL, List.find?, avalToQ]
  · have hgen : ∀ (x : Elem), x.tag = "circle" →
        clipPhaseA board [(x, b)]
          = (if outsideBoard b board
             then ([retagG x], (rescueHole board 0 x).toList) else ([x], [])) := by
      intro x hx
      by_cases hcb : outsideBoard b board = true
      · simp only [clipPhaseA, List.map, phaseAStep, hcb, if_true, List.filter, hx,
          List.enum, List.enumFrom, List.reduceOption]
        simp [hcb]
        cases rescueHole board 0 x <;> simp
      · replace hcb : outsideBoard b board = false := by simpa using hcb
        simp [clipPhaseA, phaseAStep, hcb, List.filter, List.reduceOption]
    exact hgen _ rfl

/-! ## Lemmas for contour splitting -/

theorem strToList_append (s t : String) : (s ++ t).toList = s.toList ++ t.toList := rfl

theorem strAppend_assoc (a b c : String) : a ++ b ++ c = a ++ (b ++ c)  := by
  apply String.ext
  show (a.data ++ b.data) ++ c.data = a.data ++ (b.data ++ c.data)
  exact List.append_assoc a.data b.data c.data

theorem takeWhile_append_single (p : Char → Bool) (a : Char) (ha : p a = false) :
    ∀ t : List Char, (t ++ [a]).takeWhile p = t.takeWhile p
  | [] => by simp [List.takeWhile, ha]
  | c :: rest => by
    by_cases hc : p c = true
    · simp [List.takeWhile_cons, hc, takeWhile_append_single p a ha rest]
    · replace hc : p c = false := by simpa using hc
      simp [List.takeWhile_cons, hc]

theorem dropWhile_append_single (p : Char → Bool) (a : Char) (ha : p a = false) :
    ∀ t : List Char, (t ++ [a]).dropWhile p = t.dropWhile p ++ [a]
  | [] => by simp [List.dropWhile, ha]
  | c :: rest => by
    by_cases hc : p c = true
    · simp [List.dropWhile_cons, hc, dropWhile_append_single p a ha rest]
    · replace hc : p c = false := by simpa using hc
      simp [List.dropWhile_cons, hc]

theorem mFinderC_append_z : ∀ l : List Char, mFinderC (l ++ ['z']) = mFinderC l
  | [] => by decide
  | c :: rest => by
    have hz1 : isSepChar 'z' = false := by decide
    have hz2 : isNumChar 'z' = false := by decide
    by_cases hm : (c = 'm' || c = 'M') = true
    · simp only [List.cons_append, mFinderC, hm, if_true, List.append_eq]
      rw [dropWhile_append_single isSepChar 'z' hz1,
          takeWhile_append_single isNumChar 'z' hz2,
          dropWhile_append_single isNumChar 'z' hz2,
          dropWhile_append_single isSepChar 'z' hz1,
          takeWhile_append_single isNumChar 'z' hz2,
          mFinderC_append_z rest]
    · replace hm : (c = 'm' || c = 'M') = false := by simpa using hm
      simp only [List.cons_append, mFinderC, hm, Bool.false_eq_true, if_false,
        List.append_eq]
      exact mFinderC_append_z rest

theorem mFinderS_append_z (s : String) : mFinderS (s ++ "z") = mFinderS s := by
  unfold mFinderS
  rw [strToList_append]
  exact congrArg _ (mFinderC_append_z s.toList)

theorem mFinderC_head : ∀ (l : List Char) (c : Char) (n1 n2 : List Char),
    mFinderC l = some (c, n1, n2) → c = 'm' ∨ c = 'M'
  | [], c, n1, n2, h => by simp [mFinderC] at h
  | a :: rest, c, n1, n2, h => by
    by_cases hm : (a = 'm' || a = 'M') = true
    · simp only [mFinderC, hm, if_true] at h
      split at h
      · have hca : a = c := congrArg Prod.fst (Option.some.inj h)
        have hmm : a = 'm' ∨ a = 'M' := by simpa using hm
        rcases hmm with h1 | h1
        · exact Or.inl (hca ▸ h1)
        · exact Or.inr (hca ▸ h1)
      · exact mFinderC_head rest c n1 n2 h
    · replace hm : (a = 'm' || a = 'M') = false := by simpa using hm
      simp only [mFinderC, hm, Bool.false_eq_true, if_false] at h
      exact mFinderC_head rest c n1 n2 h

theorem mFinderS_head (s : String) (c : Char) (n1 n2 : String)
    (h : mFinderS s = some (c, n1, n2)) : c = 'm' ∨ c = 'M' := by
  unfold mFinderS at h
  cases hq : mFinderC s.toList with
  | none => rw [hq] at h; exact absurd h (by simp)
  | some t =>
    rw [hq] at h
    have hc : t.1 = c := congrArg Prod.fst (Option.some.inj h)
    exact hc ▸ mFinderC_head s.toList t.1 t.2.1 t.2.2 (by rw [hq])

theorem startsWithMC_append (s t : String) (h : startsWithMC s = true) :
    startsWithMC (s ++ t) = true := by
  unfold startsWithMC at h ⊢
  rw [strToList_append]
  cases hs : s.toList with
  | nil => rw [hs] at h; simp at h
  | cons c cs => rw [hs] at h; simpa using h

theorem startsWithMC_moveChunk (c : Char) (n1 n2 : String) (hc : c = 'm' ∨ c = 'M') :
    startsWithMC (moveChunk c n1 n2) = true := by
  have : startsWithMC (String.mk [c]) = true := by
    rcases hc with h | h <;> simp [startsWithMC, String.toList, h]
  unfold moveChunk
  rw [strAppend_assoc, strAppend_assoc, strAppend_assoc]
  exact startsWithMC_append _ _ this

theorem endsWithZci_append_z (s : String) : endsWithZci (s ++ "z") = true := by
  have h : (s ++ "z").toList = s.toList ++ ['z'] := rfl
  simp [endsWithZci, h, List.getLast?_concat]

theorem expandLoop_true_cons (prior sub : String) (rest : List String) :
    expandLoop true prior (sub :: rest)
      = (if headIsLowerM (trimS sub ++ "z") then prior ++ (trimS sub ++ "z")
         else (trimS sub ++ "z"))
        :: expandLoop true (updatePrior prior (mFinderS (trimS sub ++ "z"))) rest := by
  by_cases h : rest = [] <;> simp [expandLoop, h]

theorem expandLoop_length (oz : Bool) : ∀ (prior : String) (l : List String),
    (expandLoop oz prior l).length = l.length
  | _, [] => rfl
  | prior, sub :: rest => by
    simp only [expandLoop, List.length_cons]
    rw [expandLoop_length oz _ rest]

theorem expandLoop_facts : ∀ (l : List String) (prior : String),
    (∀ sp ∈ l, startsWithMC (trimS sp) = true) →
    (∀ sp ∈ l, (mFinderS (trimS sp)).isSome = true) →
    startsWithMC prior = true →
    ∀ e ∈ expandLoop true prior l, startsWithMC e = true ∧ endsWithZci e = true
  | [], prior, _, _, _ => by
    intro e he
    simp [expandLoop] at he
  | sub :: rest, prior, hok, hM, hp => by
    intro e he
    rw [expandLoop_true_cons] at he
    rcases List.mem_cons.mp he with he | he
    · subst he
      by_cases hlm : headIsLowerM (trimS sub ++ "z") = true
      · rw [if_pos hlm]
        refine ⟨startsWithMC_append _ _ hp, ?_⟩
        rw [← strAppend_assoc]
        exact endsWithZci_append_z _
      · rw [if_neg hlm]
        exact ⟨startsWithMC_append _ _ (hok sub (List.mem_cons_self sub rest)),
          endsWithZci_append_z _⟩
    · have hMs : (mFinderS (trimS sub)).isSome = true :=
        hM sub (List.mem_cons_self sub rest)
      rw [mFinderS_append_z] at he
      rcases hq : mFinderS (trimS sub) with _ | ⟨c, n1, n2⟩
      · rw [hq] at hMs; simp at hMs
      · rw [hq] at he
        have hcm : c = 'm' ∨ c = 'M' := mFinderS_head _ _ _ _ hq
        have hp2 : startsWithMC (updatePrior prior (some (c, n1, n2))) = true := by
          show startsWithMC
            (if c = 'M' then moveChunk c n1 n2 else prior ++ moveChunk c n1 n2) = true
          by_cases hcM : c = 'M'
          · rw [if_pos hcM]
            exact startsWithMC_moveChunk c n1 n2 hcm
          · rw [if_neg hcM]
            exact startsWithMC_append _ _ hp
        exact expandLoop_facts rest _
          (fun sp hsp => hok sp (List.mem_cons_of_mem sub hsp))
          (fun sp hsp => hM sp (List.mem_cons_of_mem sub hsp)) hp2 e he

/-- C3: if any path with multiple contour-close markers has a subpath
that does not begin with a move command, dealWithMultipleContours
reports the malformed-cutout message, returns false, and leaves every
path's d attribute unchanged. -/
theorem dealWithMultipleContours_malformed (ds : List String) (d sp : String)
    (hd : d ∈ ds) (hz : hasMultipleZs (trimS d) = true)
    (hsp : sp ∈ subpathsOf d) (hm : startsWithMC (trimS sp) = false) :
    dealWithMultipleContours ds = ⟨false, true, ds⟩ := by
  have hany : ds.any (fun x => hasMultipleZs (trimS x)) = true :=
    List.any_eq_true.mpr ⟨d, hd, hz⟩
  have hcf : contoursOKFor d = false := by
    cases hq : contoursOKFor d
    · rfl
    · exfalso
      have := List.all_eq_true.mp (by simpa [contoursOKFor] using hq) sp hsp
      rw [hm] at this
      exact Bool.false_ne_true this
  have hall : ds.all (fun x => !hasMultipleZs (trimS x) || contoursOKFor x) = false := by
    cases hq : ds.all (fun x => !hasMultipleZs (trimS x) || contoursOKFor x)
    · rfl
    · exfalso
      have := List.all_eq_true.mp hq d hd
      rw [hz, hcf] at this
      simp at this
  simp [dealWithMultipleContours, hany, hall]

/-- Witness for C3: the second subpath of this outline path starts with
a line command, so splitting reports the malformed-cutout message and
changes nothing. -/
theorem dealWithMultipleContours_malformed_witness :
    dealWithMultipleContours ["M0,0 L1,1z L2,2z"]
      = ⟨false, true, ["M0,0 L1,1z L2,2z"]⟩ :=
  dealWithMultipleContours_malformed ["M0,0 L1,1z L2,2z"] "M0,0 L1,1z L2,2z" " L2,2"
    (by decide) (by decide) (by decide) (by decide)

/-- C6 (amended): for an outline path with multiple close markers whose
subpaths all begin with a move command carrying coordinates and whose
data ends with a close marker, splitting yields one path element per
subpath: the original rewritten to the first subpath reclosed, plus one
appended sibling per remaining subpath, each beginning with a move
command (the tracked prior move is prepended to relative moves) and
ending with a close marker. The element count equals the number of
subpaths, not in general the number of close markers. -/
theorem dealWithMultipleContours_split (d s0 : String) (rest : List String)
    (hz : hasMultipleZs (trimS d) = true)
    (hok : contoursOKFor d = true)
    (hsubs : subpathsOf d = s0 :: rest)
    (hendz : endsWithZci (trimS d) = true)
    (hM : ∀ sp ∈ subpathsOf d, (mFinderS (trimS sp)).isSome = true) :
    dealWithMultipleContours [d]
      = ⟨true, false, (s0 ++ "z") ::
          expandLoop true (capsConcat (mFinderS (trimS s0))) rest⟩ ∧
    (dealWithMultipleContours [d]).paths.length = (subpathsOf d).length ∧
    (dealWithMultipleContours [d]).paths.head? = some (s0 ++ "z") ∧
    ∀ e ∈ (dealWithMultipleContours [d]).paths.tail,
      startsWithMC e = true ∧ endsWithZci e = true := by
  have hexp : expandContours d = (s0 ++ "z") ::
      expandLoop true (capsConcat (mFinderS (trimS s0))) rest := by
    rw [expandContours, if_pos hz, hsubs, hendz]
  have hmain : dealWithMultipleContours [d]
      = ⟨true, false, (s0 ++ "z") ::
          expandLoop true (capsConcat (mFinderS (trimS s0))) rest⟩ := by
    have h1 : [d].any (fun x => hasMultipleZs (trimS x)) = true := by simp [hz]
    have h2 : [d].all (fun x => !hasMultipleZs (trimS x) || contoursOKFor x) = true := by
      simp [hz, hok]
    simp [dealWithMultipleContours, h1, h2, hexp]
  refine ⟨hmain, ?_, ?_, ?_⟩
  · rw [hmain, hsubs]
    simp [expandLoop_length]
  · rw [hmain]
    rfl
  · rw [hmain]
    intro e he
    have hokAll : ∀ sp ∈ subpathsOf d, startsWithMC (trimS sp) = true :=
      fun sp hsp => List.all_eq_true.mp (by simpa [contoursOKFor] using hok) sp hsp
    have hprior : startsWithMC (capsConcat (mFinderS (trimS s0))) = true := by
      have h0 : (mFinderS (trimS s0)).isSome = true :=
        hM s0 (hsubs ▸ List.mem_cons_self s0 rest)
      rcases hq : mFinderS (trimS s0) with _ | ⟨c, n1, n2⟩
      · rw [hq] at h0; simp at h0
      · exact startsWithMC_moveChunk c n1 n2 (mFinderS_head _ _ _ _ hq)
    exact expandLoop_facts rest _
      (fun sp hsp => hokAll sp (hsubs ▸ List.mem_cons_of_mem s0 hsp))
      (fun sp hsp => hM sp (hsubs ▸ List.mem_cons_of_mem s0 hsp)) hprior e he

/-- Witness for C6: both subpaths start with a move command; the second
is a relative move, so the prior absolute move is prepended; the result
is one path element per subpath. -/
theorem dealWithMultipleContours_split_witness :
    dealWithMultipleContours ["M1,2 L3,4z m5,6 L7,8z"]
      = ⟨true, false, ["M1,2 L3,4" ++ "z", "M1,2 " ++ "m5,6 L7,8z"]⟩ :=
  (dealWithMultipleContours_split "M1,2 L3,4z m5,6 L7,8z" "M1,2 L3,4" [" m5,6 L7,8"]
    (by decide) (by decide) (by decide) (by decide) (by decide)).1

/-- Counterexample for C6 as stated: this path carries two contour-close
markers, every subpath (there are three) begins with a move command, yet
splitting produces three path elements, not two. -/
theorem dealWithMultipleContours_split_cex :
    ("M1,1z M2,2z M3,3" : String).toList.countP (fun c => c = 'z' || c = 'Z') = 2 ∧
    (∀ sp ∈ subpathsOf "M1,1z M2,2z M3,3", startsWithMC (trimS sp) = true) ∧
    (dealWithMultipleContours ["M1,1z M2,2z M3,3"]).paths.length = 3 := by
  refine ⟨by decide, by decide, by decide⟩

/-! ## Lemmas for the cleaning pass -/

mutual

theorem squashT_id (p : Elem → Bool) : (e : Elem) → anyT p e = false → squashT p e = e
  | .mk t a c, h => by
    simp only [anyT, Bool.or_eq_false_iff] at h
    simp only [squashT, h.1, Bool.false_eq_true, if_false]
    rw [squashL_id p c h.2]

theorem squashL_id (p : Elem → Bool) : (l : List Elem) → anyL p l = false → squashL p l = l
  | [], _ => rfl
  | e :: rest, h => by
    simp only [anyL, Bool.or_eq_false_iff] at h
    simp only [squashL]
    rw [squashT_id p e h.1, squashL_id p rest h.2]

end

mutual

theorem anyT_false (p : Elem → Bool) :
    (e : Elem) → (∀ x ∈ nodesT e, p x = false) → anyT p e = false
  | .mk t a c, h => by
    have h0 : p (.mk t a c) = false := h _ (by simp [nodesT])
    have hL : anyL p c = false := anyL_false p c (fun x hx => h x (by simp [nodesT, hx]))
    simp [anyT, h0, hL]

theorem anyL_false (p : Elem → Bool) :
    (l : List Elem) → (∀ x ∈ nodesL l, p x = false) → anyL p l = false
  | [], _ => by simp [anyL]
  | e :: rest, h => by
    have h1 := anyT_false p e (fun x hx => h x (by simp [nodesL, hx]))
    have h2 := anyL_false p rest (fun x hx => h x (by simp [nodesL, hx]))
    simp [anyL, h1, h2]

end

mutual

theorem gerberSafeT_nodes (isSc : String → Bool) (anc : Bool) :
    (e : Elem) → gerberSafeT isSc anc e = true → ∀ x ∈ nodesT e, safeElem x = true
  | .mk t a c, h, x, hx => by
    simp only [gerberSafeT, Bool.and_eq_true] at h
    obtain ⟨⟨hs, _⟩, hrest⟩ := h
    rcases List.mem_cons.mp (by simpa [nodesT] using hx) with hx | hx
    · subst hx; exact hs
    · exact gerberSafeL_nodes isSc _ c hrest x hx

theorem gerberSafeL_nodes (isSc : String → Bool) (anc : Bool) :
    (l : List Elem) → gerberSafeL isSc anc l = true → ∀ x ∈ nodesL l, safeElem x = true
  | [], _, x, hx => by simp [nodesL] at hx
  | e :: rest, h, x, hx => by
    simp only [gerberSafeL, Bool.and_eq_true] at h
    rcases List.mem_append.mp (by simpa [nodesL] using hx) with hx | hx
    · exact gerberSafeT_nodes isSc anc e h.1 x hx
    · exact gerberSafeL_nodes isSc anc rest h.2 x hx

end

mutual

theorem scaledPathsT_id (isSc : String → Bool) (anc : Bool) :
    (e : Elem) → gerberSafeT isSc anc e = true →
      scaledPathsT isSc anc e = e ∧ scaledAnyT isSc anc e = false
  | .mk t a c, h => by
    simp only [gerberSafeT, Bool.and_eq_true] at h
    obtain ⟨⟨_, hpc⟩, hrest⟩ := h
    have hcond : (decide (t = "path") && transformScaled isSc anc a) = false := by
      cases hdp : decide (t = "path")
      · simp
      · rw [hdp] at hpc
        simp only [Bool.not_true, Bool.false_or, Bool.not_eq_true'] at hpc
        simp [hpc]
    have hch := scaledPathsL_id isSc (transformScaled isSc anc a) c hrest
    constructor
    · simp only [scaledPathsT, hcond, Bool.false_eq_true, if_false]
      rw [hch.1]
    · simp only [scaledAnyT, hcond, Bool.false_or]
      exact hch.2

theorem scaledPathsL_id (isSc : String → Bool) (anc : Bool) :
    (l : List Elem) → gerberSafeL isSc anc l = true →
      scaledPathsL isSc anc l = l ∧ scaledAnyL isSc anc l = false
  | [], _ => ⟨rfl, rfl⟩
  | e :: rest, h => by
    simp only [gerberSafeL, Bool.and_eq_true] at h
    have h1 := scaledPathsT_id isSc anc e h.1
    have h2 := scaledPathsL_id isSc anc rest h.2
    constructor
    · simp only [scaledPathsL]
      rw [h1.1, h2.1]
    · simp [scaledAnyL, h1.2, h2.2]

end

theorem matchDash_false (tag : String) (x : Elem) (hdash : safeElem.dashOK x = true) :
    matchDash tag x = false := by
  have hdm : (match x.attr? "stroke-dasharray" with
      | some (.s v) => !strStartsWith v "none"
      | some (.q _) => true
      | none => false) = false := by
    rcases hq : x.attr? "stroke-dasharray" with _ | v
    · simp
    · cases v with
      | s sv =>
        simp only [safeElem.dashOK, hq, decide_eq_true_eq] at hdash
        subst hdash
        have : strStartsWith "none" "none" = true := by decide
        simp [this]
      | q qv =>
        simp only [safeElem.dashOK, hq] at hdash
        exact absurd hdash (by decide)
  simp [matchDash, hdm]

theorem safeElem_noMatch (x : Elem) (h : safeElem x = true) :
    matchTag "text" x = false ∧ matchTag "ellipse" x = false ∧ matchTag "image" x = false ∧
    matchTagAttr "rect" "rx" x = false ∧ matchTagAttr "rect" "ry" x = false ∧
    matchDash "rect" x = false ∧ matchDash "circle" x = false ∧ matchDash "line" x = false ∧
    matchCurve x = false ∧ matchMultiZ x = false := by
  simp only [safeElem, Bool.and_eq_true] at h
  obtain ⟨⟨⟨⟨⟨⟨h1, h2⟩, h3⟩, h4⟩, h5⟩, h6⟩, h7⟩ := h
  replace h1 : x.tag ≠ "text" := by simpa using h1
  replace h2 : x.tag ≠ "ellipse" := by simpa using h2
  replace h3 : x.tag ≠ "image" := by simpa using h3
  have hrect : x.tag = "rect" →
      x.attr? "rx" = none ∧ x.attr? "ry" = none ∧ safeElem.dashOK x = true := by
    intro ht
    rcases (by simpa using h4 : x.tag ≠ "rect" ∨ _) with hco | hco
    · exact absurd ht hco
    · exact ⟨hco.1.1, hco.1.2, hco.2⟩
  have hdashOK : x.tag = "rect" ∨ x.tag = "circle" ∨ x.tag = "line" →
      safeElem.dashOK x = true := by
    intro ht
    rcases ht with ht | ht | ht
    · exact (hrect ht).2.2
    · rcases (by simpa using h5 : x.tag ≠ "circle" ∨ safeElem.dashOK x = true) with hco | hco
      · exact absurd ht hco
      · exact hco
    · rcases (by simpa using h6 : x.tag ≠ "line" ∨ safeElem.dashOK x = true) with hco | hco
      · exact absurd ht hco
      · exact hco
  have hdash : ∀ tg, tg = "rect" ∨ tg = "circle" ∨ tg = "line" → matchDash tg x = false := by
    intro tg htg
    by_cases ht : x.tag = tg
    · refine matchDash_false tg x (hdashOK ?_)
      rcases htg with h | h | h
      · exact Or.inl (ht.trans h)
      · exact Or.inr (Or.inl (ht.trans h))
      · exact Or.inr (Or.inr (ht.trans h))
    · simp [matchDash, ht]
  refine ⟨by simp [matchTag, h1], by simp [matchTag, h2], by simp [matchTag, h3],
    ?_, ?_, hdash "rect" (Or.inl rfl), hdash "circle" (Or.inr (Or.inl rfl)),
    hdash "line" (Or.inr (Or.inr rfl)), ?_, ?_⟩
  · by_cases ht : x.tag = "rect"
    · simp [matchTagAttr, (hrect ht).1]
    · simp [matchTagAttr, ht]
  · by_cases ht : x.tag = "rect"
    · simp [matchTagAttr, (hrect ht).2.1]
    · simp [matchTagAttr, ht]
  · by_cases ht : x.tag = "path"
    · rcases (by simpa using h7 : x.tag ≠ "path" ∨
          (hasCurveCmd (x.strAttr "d") = false ∧ hasMultipleZs (x.strAttr "d") = false))
        with hco | hco
      · exact absurd ht hco
      · simp [matchCurve, hco.1]
    · simp [matchCurve, ht]
  · by_cases ht : x.tag = "path"
    · rcases (by simpa using h7 : x.tag ≠ "path" ∨
          (hasCurveCmd (x.strAttr "d") = false ∧ hasMultipleZs (x.strAttr "d") = false))
        with hco | hco
      · exact absurd ht hco
      · simp [matchMultiZ, hco.2]
    · simp [matchMultiZ, ht]

/-- C7: a document all of whose elements are Gerber-safe (no text,
ellipse or image; rects without rx/ry and without a non-none
stroke-dasharray; circles and lines without a non-none dash; paths
without curve commands, without multiple contour-close markers, and
with no scaling transform on themselves or an ancestor) passes the
cleaning pass unchanged, and the pass reports that nothing unsupported
was found. -/
theorem cleanPass_safe (isSc : String → Bool) (e : Elem)
    (h : gerberSafeT isSc false e = true) :
    cleanPass isSc e = (e, false) := by
  have hnodes := gerberSafeT_nodes isSc false e h
  have hsm := fun (x : Elem) (hx : x ∈ nodesT e) => safeElem_noMatch x (hnodes x hx)
  have a1 : anyT (matchTag "text") e = false :=
    anyT_false _ e (fun x hx => (hsm x hx).1)
  have a2 : anyT (matchTag "ellipse") e = false :=
    anyT_false _ e (fun x hx => (hsm x hx).2.1)
  have a3 : anyT (matchTag "image") e = false :=
    anyT_false _ e (fun x hx => (hsm x hx).2.2.1)
  have a4 : anyT (matchTagAttr "rect" "rx") e = false :=
    anyT_false _ e (fun x hx => (hsm x hx).2.2.2.1)
  have a5 : anyT (matchTagAttr "rect" "ry") e = false :=
    anyT_false _ e (fun x hx => (hsm x hx).2.2.2.2.1)
  have a6 : anyT (matchDash "rect") e = false :=
    anyT_false _ e (fun x hx => (hsm x hx).2.2.2.2.2.1)
  have a7 : anyT (matchDash "circle") e = false :=
    anyT_false _ e (fun x hx => (hsm x hx).2.2.2.2.2.2.1)
  have a8 : anyT (matchDash "line") e = false :=
    anyT_false _ e (fun x hx => (hsm x hx).2.2.2.2.2.2.2.1)
  have a9 : anyT matchCurve e = false :=
    anyT_false _ e (fun x hx => (hsm x hx).2.2.2.2.2.2.2.2.1)
  have a10 : anyT matchMultiZ e = false :=
    anyT_false _ e (fun x hx => (hsm x hx).2.2.2.2.2.2.2.2.2)
  have s1 := squashT_id _ e a1
  have s2 := squashT_id _ e a2
  have s3 := squashT_id _ e a3
  have s4 := squashT_id _ e a4
  have s5 := squashT_id _ e a5
  have s6 := squashT_id _ e a6
  have s7 := squashT_id _ e a7
  have s8 := squashT_id _ e a8
  have s9 := squashT_id _ e a9
  have s10 := squashT_id _ e a10
  have hscale := scaledPathsT_id isSc false e h
  simp [cleanPass, squashElem, s1, s2, s3, s4, s5, s6, s7, s8, s9, s10,
    a1, a2, a3, a4, a5, a6, a7, a8, a9, a10, hscale.1, hscale.2]

/-- Witness for C7: a concrete all-safe document (a rect, a dash-none
circle, a line, a straight path) is Gerber-safe and passes the cleaning
pass unchanged. -/
theorem cleanPass_safe_witness :
    gerberSafeT (fun _ => false) false safeDoc = true ∧
    cleanPass (fun _ => false) safeDoc = (safeDoc, false) :=
  ⟨by rfl, cleanPass_safe (fun _ => false) safeDoc (by rfl)⟩

/-- Counterexample for C4 as stated: a circle of radius 10 and stroke
width 2 centered 5 units inside the right board edge straddles the
boundary by 5, less than its own radius, so the claim says it survives;
its bounds are outside the board, the inset retest fails (the reduced
circle still reaches 4 beyond the board), and no clone survives. -/
theorem clipPhaseA_holeRescue_cex :
    (1005 : ℚ) - 1000 < 10 ∧
    outsideBoard (Rect.mkCircle 995 500 10) ⟨0, 0, 1000, 1000⟩ = true ∧
    (clipPhaseA ⟨0, 0, 1000, 1000⟩
       [(plainCircle 995 500 10 2, Rect.mkCircle 995 500 10)]).2 = [] := by
  have houts : outsideBoard (Rect.mkCircle 995 500 10) ⟨0, 0, 1000, 1000⟩ = true := by
    norm_num [outsideBoard, Rect.mkCircle, unknownMargin]
  have hrescue : rescueHole ⟨0, 0, 1000, 1000⟩ 0 (plainCircle 995 500 10 2) = none := by
    have hcb : circleBounds (insetClone 0 (plainCircle 995 500 10 2))
        = Rect.mkCircle 995 500 (10 - 2 / 2) := rfl
    have hb : outsideBoard (circleBounds (insetClone 0 (plainCircle 995 500 10 2)))
        ⟨0, 0, 1000, 1000⟩ = true := by
      rw [hcb]
      norm_num [outsideBoard, Rect.mkCircle, unknownMargin]
    simp [rescueHole, hb]
  have htag : (plainCircle 995 500 10 2).tag = "circle" := rfl
  refine ⟨by norm_num, houts, ?_⟩
  simp [clipPhaseA, phaseAStep, houts, htag, List.filter, List.enum, List.enumFrom,
    List.reduceOption, hrescue]

/-! ## Lemmas for the render-retry loop -/

theorem find?_append_some {α : Type} (l1 l2 : List α) (p : α → Bool) (y : α)
    (h : l1.find? p = some y) : (l1 ++ l2).find? p = some y := by
  induction l1 with
  | nil => simp [List.find?] at h
  | cons a rest ih =>
    cases hp : p a
    · simp only [List.find?, hp] at h
      simp only [List.cons_append, List.find?, hp]
      exact ih h
    · simp only [List.find?, hp] at h
      simp only [List.cons_append, List.find?, hp]
      exact h

theorem find?_append_none {α : Type} (l1 l2 : List α) (p : α → Bool)
    (h : l1.find? p = none) : (l1 ++ l2).find? p = l2.find? p := by
  induction l1 with
  | nil => simp
  | cons a rest ih =>
    cases hp : p a
    · simp only [List.find?, hp] at h
      simp only [List.cons_append, List.find?, hp]
      exact ih h
    · simp only [List.find?, hp] at h
      exact absurd h (by simp)

theorem find?_range_eq_some (p : ℕ → Bool) (n j : ℕ) (hj : j < n) (hpj : p j = true)
    (hlt : ∀ i, i < j → p i = false) : (List.range n).find? p = some j := by
  induction n with
  | zero => omega
  | succ n ih =>
    rw [List.range_succ]
    rcases Nat.lt_succ_iff_lt_or_eq.mp hj with hj2 | hj2
    · exact find?_append_some _ _ _ _ (ih hj2)
    · subst hj2
      have hnone : (List.range j).find? p = none :=
        List.find?_eq_none.mpr (fun i hi => by
          rw [hlt i (List.mem_range.mp hi)]; simp)
      rw [find?_append_none _ _ _ hnone]
      simp [List.find?, hpj]

theorem find?_congr {α : Type} (l : List α) (p q : α → Bool)
    (h : ∀ x ∈ l, p x = q x) : l.find? p = l.find? q := by
  induction l with
  | nil => rfl
  | cons a rest ih =>
    have ha := h a (List.mem_cons_self a rest)
    cases hp : p a
    · simp only [List.find?, hp, ← ha]
      exact ih (fun x hx => h x (List.mem_cons_of_mem a hx))
    · simp only [List.find?, hp, ← ha]

theorem any_congr {α : Type} (l : List α) (p q : α → Bool)
    (h : ∀ x ∈ l, p x = q x) : l.any p = l.any q := by
  induction l with
  | nil => rfl
  | cons a rest ih =>
    simp only [List.any_cons, h a (List.mem_cons_self a rest),
      ih (fun x hx => h x (List.mem_cons_of_mem a hx))]

theorem buildSeen_succ {α β : Type} (render : ℕ → α) (hf : α → β) (c : ℕ) :
    buildSeen render hf (c + 1) = (hf (render c), render c) :: buildSeen render hf c := by
  simp [buildSeen, List.range_succ]

theorem mem_buildSeen {α β : Type} {render : ℕ → α} {hf : α → β} {c : ℕ}
    {x : β × α} (hx : x ∈ buildSeen render hf c) :
    ∃ i, i < c ∧ x = (hf (render i), render i) := by
  simp only [buildSeen, List.mem_reverse, List.mem_map, List.mem_range] at hx
  obtain ⟨i, hi, hxi⟩ := hx
  exact ⟨i, hi, hxi.symm⟩

theorem buildSeen_mem {α β : Type} (render : ℕ → α) (hf : α → β) (c i : ℕ)
    (hic : i < c) : (hf (render i), render i) ∈ buildSeen render hf c := by
  simp only [buildSeen, List.mem_reverse, List.mem_map, List.mem_range]
  exact ⟨i, hic, rfl⟩

theorem renderLoopAux_policy {α β : Type} [DecidableEq β] (render : ℕ → α) (hf : α → β) :
    ∀ (k c fuel : ℕ), c + k = 5 → k + 2 ≤ fuel →
      (∀ i j, i < j → j < c → hf (render i) ≠ hf (render j)) →
      renderLoopAux render hf fuel c (buildSeen render hf c)
        = some (retryPolicy render hf)
  | k, c, fuel, hck, hfuel, hnr => by
    obtain ⟨f, rfl⟩ : ∃ f, fuel = f + 1 := ⟨fuel - 1, by omega⟩
    simp only [renderLoopAux]
    cases hfind : (buildSeen render hf c).find?
        (fun p => decide (p.1 = hf (render c))) with
    | some y =>
      have hy := List.find?_some hfind
      obtain ⟨i, hic, hyi⟩ := mem_buildSeen (List.mem_of_find?_eq_some hfind)
      have hhash : hf (render i) = hf (render c) := by
        rw [hyi] at hy; simpa using hy
      have houter : (List.range 6).find?
          (fun j => (List.range j).any (fun i2 => decide (hf (render i2) = hf (render j))))
            = some c := by
        apply find?_range_eq_some _ _ _ (by omega)
        · exact List.any_eq_true.mpr ⟨i, List.mem_range.mpr hic, by simp [hhash]⟩
        · intro j hj
          cases hq : (List.range j).any (fun i2 => decide (hf (render i2) = hf (render j)))
          · rfl
          · exfalso
            obtain ⟨i2, hi2, heq⟩ := List.any_eq_true.mp hq
            exact hnr i2 j (List.mem_range.mp hi2) hj (by simpa using heq)
      have hinner : (List.range c).find?
          (fun i2 => decide (hf (render i2) = hf (render c))) = some i := by
        apply find?_range_eq_some _ _ _ hic (by simp [hhash])
        intro i2 hi2
        have hne : hf (render i2) ≠ hf (render c) := by
          intro heq
          exact hnr i2 i hi2 hic (heq.trans hhash.symm)
        simp [hne]
      have hpol : retryPolicy render hf = render i := by
        simp only [retryPolicy, firstRepeatPair, houter, hinner]
      rw [hpol, hyi]
    | none =>
      have hnomatch : ∀ i, i < c → hf (render i) ≠ hf (render c) := by
        intro i hic heq
        have := List.find?_eq_none.mp hfind _ (buildSeen_mem render hf c i hic)
        simp only [decide_eq_true_eq] at this
        exact this heq
      have hnr2 : ∀ i j, i < j → j < c + 1 → hf (render i) ≠ hf (render j) := by
        intro i j hij hjc
        rcases Nat.lt_succ_iff_lt_or_eq.mp hjc with hjc | hjc
        · exact hnr i j hij hjc
        · subst hjc; exact hnomatch i hij
      show (if 5 ≤ c then some (render c)
          else renderLoopAux render hf f (c + 1)
            ((hf (render c), render c) :: buildSeen render hf c))
        = some (retryPolicy render hf)
      by_cases hc5 : 5 ≤ c
      · rw [if_pos hc5]
        have hc : c = 5 := by omega
        subst hc
        have houter : (List.range 6).find?
            (fun j => (List.range j).any (fun i2 => decide (hf (render i2) = hf (render j))))
              = none := by
          apply List.find?_eq_none.mpr
          intro j hj
          have hj6 := List.mem_range.mp hj
          cases hq : (List.range j).any
              (fun i2 => decide (hf (render i2) = hf (render j)))
          · simp
          · exfalso
            obtain ⟨i2, hi2, heq⟩ := List.any_eq_true.mp hq
            exact hnr2 i2 j (List.mem_range.mp hi2) (by omega) (by simpa using heq)
        have hpol : retryPolicy render hf = render 5 := by
          simp only [retryPolicy, firstRepeatPair, houter]
        rw [hpol]
      · rw [if_neg hc5]
        have hc4 : c ≤ 4 := by omega
        obtain ⟨k2, rfl⟩ : ∃ k2, k = k2 + 1 := ⟨k - 1, by omega⟩
        rw [← buildSeen_succ]
        exact renderLoopAux_policy render hf k2 (c + 1) f (by omega) (by omega) hnr2

/-- C8: the render-retry loop terminates within a bounded number of
renders and follows the stated policy: it returns the stored image of
the first render whose hash repeats an earlier one, or the sixth (last)
image when all six hashes are distinct; giving the loop more fuel does
not change the result, and the result depends only on the first six
renders. -/
theorem renderLoop_spec {α β : Type} [DecidableEq β] (render : ℕ → α) (hf : α → β) :
    renderLoop render hf = some (retryPolicy render hf) ∧
    (∀ extra : ℕ, renderLoopAux render hf (7 + extra) 0 []
      = some (retryPolicy render hf)) ∧
    ∀ render2 : ℕ → α, (∀ i, i ≤ 5 → render2 i = render i) →
      renderLoop render2 hf = renderLoop render hf := by
  have hbase : ∀ fuel : ℕ, 7 ≤ fuel →
      renderLoopAux render hf fuel 0 [] = some (retryPolicy render hf) := by
    intro fuel hfuel
    have := renderLoopAux_policy render hf 5 0 fuel (by omega) (by omega)
      (by intro i j _ hj; omega)
    simpa [buildSeen] using this
  refine ⟨hbase 7 (by omega), fun extra => hbase (7 + extra) (by omega), ?_⟩
  intro render2 hr2
  have hpol : retryPolicy render2 hf = retryPolicy render hf := by
    have hpred : ∀ j ∈ List.range 6,
        ((List.range j).any (fun i => decide (hf (render2 i) = hf (render2 j))))
          = ((List.range j).any (fun i => decide (hf (render i) = hf (render j)))) := by
      intro j hj
      have hj6 := List.mem_range.mp hj
      apply any_congr
      intro i hi
      have hi6 := List.mem_range.mp hi
      rw [hr2 i (by omega), hr2 j (by omega)]
    cases hout : (List.range 6).find?
        (fun j => (List.range j).any (fun i => decide (hf (render i) = hf (render j)))) with
    | none =>
      have hout2 : (List.range 6).find?
          (fun j => (List.range j).any (fun i => decide (hf (render2 i) = hf (render2 j))))
            = none := by
        rw [find?_congr _ _ _ hpred]; exact hout
      simp only [retryPolicy, firstRepeatPair, hout, hout2]
      exact hr2 5 (by omega)
    | some j =>
      have hj6 : j < 6 :=
        List.mem_range.mp (List.mem_of_find?_eq_some hout)
      have hout2 : (List.range 6).find?
          (fun j => (List.range j).any (fun i => decide (hf (render2 i) = hf (render2 j))))
            = some j := by
        rw [find?_congr _ _ _ hpred]; exact hout
      have hpredin : ∀ i ∈ List.range j,
          (decide (hf (render2 i) = hf (render2 j)) : Bool)
            = decide (hf (render i) = hf (render j)) := by
        intro i hi
        have hij := List.mem_range.mp hi
        rw [hr2 i (by omega), hr2 j (by omega)]
      cases hin : (List.range j).find?
          (fun i => decide (hf (render i) = hf (render j))) with
      | none =>
        have hin2 : (List.range j).find?
            (fun i => decide (hf (render2 i) = hf (render2 j))) = none := by
          rw [find?_congr _ _ _ hpredin]; exact hin
        simp only [retryPolicy, firstRepeatPair, hout, hout2, hin, hin2]
        exact hr2 5 (by omega)
      | some i =>
        have hij : i < j :=
          List.mem_range.mp (List.mem_of_find?_eq_some hin)
        have hin2 : (List.range j).find?
            (fun i => decide (hf (render2 i) = hf (render2 j))) = some i := by
          rw [find?_congr _ _ _ hpredin]; exact hin
        simp only [retryPolicy, firstRepeatPair, hout, hout2, hin, hin2]
        exact hr2 i (by omega)
  have h1 := renderLoopAux_policy render2 hf 5 0 7 (by omega) (by omega)
    (by intro i j _ hj; omega)
  have h2 := renderLoopAux_policy render hf 5 0 7 (by omega) (by omega)
    (by intro i j _ hj; omega)
  have hb2 : buildSeen render2 hf 0 = ([] : List (β × α)) := by simp [buildSeen]
  have hb : buildSeen render hf 0 = ([] : List (β × α)) := by simp [buildSeen]
  rw [hb2] at h1
  rw [hb] at h2
  show renderLoopAux render2 hf 7 0 [] = renderLoopAux render hf 7 0 []
  rw [h1, h2, hpol]

/-! ## Lemmas and theorems for handleDonuts -/

theorem handleDonutsL_append (treat : List Connector) (bounds : Elem → Rect)
    (anc : List String) :
    ∀ l1 l2 : List Elem, handleDonutsL treat bounds anc (l1 ++ l2)
      = handleDonutsL treat bounds anc l1 ++ handleDonutsL treat bounds anc l2
  | [], l2 => by simp [handleDonutsL]
  | x :: rest, l2 => by
    show handleDonutsL treat bounds anc (x :: (rest ++ l2)) = _
    simp only [handleDonutsL, handleDonutsL_append treat bounds anc rest l2,
      List.append_assoc]

/-- C1 (amended): a registered path found by id whose connector the
ancestor walk resolves is replaced in place by the circle-then-stripped
path pair; the circle carries the connector radius and stroke width
scaled by StandardFritzingDPI/SVGDPI = 1000/90 (not passed through
unchanged), and its center is the center of the rendered bounds of the
path. -/
theorem handleDonuts_attrs (treat : List Connector) (bounds : Elem → Rect)
    (anc : List String) (pre post : List Elem) (e : Elem) (conn : Connector) (i : String)
    (htag : e.tag = "path") (hid : e.strAttr "id" = i) (hne : i ≠ "")
    (hmem : (treat.map (fun c => c.svgId)).contains i = true)
    (hfind : findConnector treat i anc = some conn) :
    handleDonutsL treat bounds anc (pre ++ e :: post)
      = handleDonutsL treat bounds anc pre
        ++ [donutCircleElem conn (bounds e) i, stripId e]
        ++ handleDonutsL treat bounds anc post ∧
    (donutCircleElem conn (bounds e) i).numAttr "r"
      = conn.radius * standardFritzingDPI / svgDPI ∧
    (donutCircleElem conn (bounds e) i).numAttr "stroke-width"
      = conn.strokeWidth * standardFritzingDPI / svgDPI ∧
    (donutCircleElem conn (bounds e) i).numAttr "cx"
      = ((bounds e).left + (bounds e).right) / 2 ∧
    (donutCircleElem conn (bounds e) i).numAttr "cy"
      = ((bounds e).top + (bounds e).bottom) / 2 ∧
    (donutCircleElem conn (bounds e) i).strAttr "id" = i ∧
    conn.radius * standardFritzingDPI / svgDPI = conn.radius * (100 / 9) := by
  refine ⟨?_, rfl, rfl, rfl, rfl, rfl, ?_⟩
  · rw [handleDonutsL_append, List.append_assoc]
    congr 1
    simp only [handleDonutsL, hid, htag, hfind]
    have hex : ∃ a ∈ treat, a.svgId = i := by simpa using hmem
    simp [hne, hex]
  · show conn.radius * 1000 / 90 = conn.radius * (100 / 9)
    ring

/-- Witness for C1: one registered connector with radius 9 and stroke
width 9/2 on a path with a matching id, one ancestor carrying its part
id; the path is replaced by the circle and the id-stripped path. -/
theorem handleDonuts_attrs_witness :
    (donutCircleElem ⟨"pad0", 7, 9, 9 / 2⟩ ⟨0, 0, 10, 20⟩ "pad0").numAttr "r"
      = 9 * standardFritzingDPI / svgDPI ∧
    handleDonutsL [⟨"pad0", 7, 9, 9 / 2⟩] (fun _ => ⟨0, 0, 10, 20⟩) ["7"]
        ([] ++ Elem.mk "path" [("id", .s "pad0")] [] :: [])
      = handleDonutsL [⟨"pad0", 7, 9, 9 / 2⟩] (fun _ => ⟨0, 0, 10, 20⟩) ["7"] []
        ++ [donutCircleElem ⟨"pad0", 7, 9, 9 / 2⟩ ⟨0, 0, 10, 20⟩ "pad0",
            stripId (Elem.mk "path" [("id", .s "pad0")] [])]
        ++ handleDonutsL [⟨"pad0", 7, 9, 9 / 2⟩] (fun _ => ⟨0, 0, 10, 20⟩) ["7"] [] := by
  have h := handleDonuts_attrs [⟨"pad0", 7, 9, 9 / 2⟩] (fun _ => ⟨0, 0, 10, 20⟩) ["7"]
    [] [] (Elem.mk "path" [("id", .s "pad0")] []) ⟨"pad0", 7, 9, 9 / 2⟩ "pad0"
    rfl rfl (by decide) (by rfl) (by rfl)
  exact ⟨h.2.1, h.1⟩

/-- Counterexample for C1 as stated: the connector radius 9 becomes the
r attribute 100 = 9 x 1000/90, and the stroke width 9/2 becomes 50, so
neither attribute is the connector value passed through unchanged. -/
theorem handleDonuts_attrs_cex :
    (donutCircleElem ⟨"pad0", 7, 9, 9 / 2⟩ ⟨0, 0, 10, 20⟩ "pad0").numAttr "r" = 100 ∧
    (100 : ℚ) ≠ 9 ∧
    (donutCircleElem ⟨"pad0", 7, 9, 9 / 2⟩ ⟨0, 0, 10, 20⟩ "pad0").numAttr "stroke-width"
      = 50 ∧
    (50 : ℚ) ≠ 9 / 2 := by
  refine ⟨?_, by norm_num, ?_, by norm_num⟩
  · show (9 : ℚ) * 1000 / 90 = 100
    norm_num
  · show (9 / 2 : ℚ) * 1000 / 90 = 50
    norm_num

/-! ## Lemmas for the export pipeline -/

theorem doCopperM_file (env : ExportEnv) (l : GLayer) :
    (doCopperM env l).file
      = if !env.renderEmpty l && !env.clipEmpty l && !env.saveFail l
        then some l else none := by
  unfold doCopperM doEndM saveEndM
  cases env.renderEmpty l <;> cases env.clipEmpty l <;> cases env.saveFail l <;> simp

theorem doMaskM_file (env : ExportEnv) (l : GLayer) :
    (doMaskM env l).file
      = if !env.renderEmpty l && !env.expandEmpty l && !env.clipEmpty l
          && !env.saveFail l then some l else none := by
  unfold doMaskM doEndM saveEndM
  cases env.renderEmpty l <;> cases env.expandEmpty l <;> cases env.clipEmpty l <;>
    cases env.saveFail l <;> simp

theorem doPasteMaskM_file (env : ExportEnv) (l : GLayer) :
    (doPasteMaskM env l).file
      = if !env.renderEmpty l && !env.pasteMakeEmpty l && !env.clipEmpty l
          && !env.saveFail l then some l else none := by
  unfold doPasteMaskM doEndM saveEndM
  cases env.renderEmpty l <;> cases env.pasteMakeEmpty l <;> cases env.clipEmpty l <;>
    cases env.saveFail l <;> simp

theorem doSilkM_file (env : ExportEnv) (l : GLayer) (h1 : Bool) :
    (doSilkM env l h1).file
      = if !env.renderEmpty l && !env.clipEmpty l && !env.saveFail l
        then some l else none := by
  unfold doSilkM doEndM saveEndM
  cases env.renderEmpty l <;> cases env.clipEmpty l <;> cases env.saveFail l <;> simp

theorem doDrillM_file (env : ExportEnv) :
    (doDrillM env).file
      = if !env.renderEmpty .drill && !env.clipEmpty .drill && !env.saveFail .drill
        then some .drill else none := by
  unfold doDrillM doEndM saveEndM
  cases env.renderEmpty .drill <;> cases env.clipEmpty .drill <;>
    cases env.saveFail .drill <;> simp

theorem saveEndM_msgs (env : ExportEnv) (l : GLayer) :
    (saveEndM env l).1 = if env.saveFail l then [Msg.saveFailure l] else [] := by
  unfold saveEndM
  cases env.saveFail l <;> simp

theorem saveEndM_fileList (env : ExportEnv) (l : GLayer) :
    (saveEndM env l).2.toList = if env.saveFail l then [] else [l] := by
  unfold saveEndM
  cases env.saveFail l <;> simp

theorem doDrillM_fileList (env : ExportEnv) :
    (doDrillM env).file.toList
      = if !env.renderEmpty .drill && !env.clipEmpty .drill && !env.saveFail .drill
        then [GLayer.drill] else [] := by
  rw [doDrillM_file]
  cases !env.renderEmpty .drill && !env.clipEmpty .drill && !env.saveFail .drill <;> simp

theorem doCopperM_msg (env : ExportEnv) (l l2 : GLayer) :
    (Msg.emptyLayer l2 ∈ (doCopperM env l).msgs)
      ↔ (l2 = l ∧ env.renderEmpty l = true) := by
  unfold doCopperM doEndM saveEndM
  cases env.renderEmpty l <;> cases env.clipEmpty l <;> cases env.saveFail l <;> simp

theorem doMaskM_msg (env : ExportEnv) (l l2 : GLayer) :
    (Msg.emptyLayer l2 ∈ (doMaskM env l).msgs)
      ↔ (l2 = l ∧ env.renderEmpty l = true) := by
  unfold doMaskM doEndM saveEndM
  cases env.renderEmpty l <;> cases env.expandEmpty l <;> cases env.clipEmpty l <;>
    cases env.saveFail l <;> simp

theorem doPasteMaskM_msg (env : ExportEnv) (l l2 : GLayer) :
    (Msg.emptyLayer l2 ∈ (doPasteMaskM env l).msgs)
      ↔ (l2 = l ∧ env.renderEmpty l = true) := by
  unfold doPasteMaskM doEndM saveEndM
  cases env.renderEmpty l <;> cases env.pasteMakeEmpty l <;> cases env.clipEmpty l <;>
    cases env.saveFail l <;> simp

theorem doSilkM_msg (env : ExportEnv) (l l2 : GLayer) (h1 : Bool) :
    (Msg.emptyLayer l2 ∈ (doSilkM env l h1).msgs)
      ↔ (l2 = l ∧ env.renderEmpty l = true ∧ h1 = true) := by
  unfold doSilkM doEndM saveEndM
  cases env.renderEmpty l <;> cases env.clipEmpty l <;> cases env.saveFail l <;>
    cases h1 <;> simp

theorem doDrillM_msg (env : ExportEnv) (l2 : GLayer) :
    (Msg.emptyLayer l2 ∈ (doDrillM env).msgs)
      ↔ (l2 = .drill ∧ env.renderEmpty .drill = true) := by
  unfold doDrillM doEndM saveEndM
  cases env.renderEmpty .drill <;> cases env.clipEmpty .drill <;>
    cases env.saveFail .drill <;> simp

theorem mem_ite_list1 {γ : Type} (c : Bool) (x a : γ) :
    (a ∈ (if c = true then ([] : List γ) else [x])) ↔ (c = false ∧ a = x) := by
  cases c <;> simp

theorem mem_ite_list2 {γ : Type} (c : Bool) (x a : γ) :
    (a ∈ (if c = true then [x] else ([] : List γ))) ↔ (c = true ∧ a = x) := by
  cases c <;> simp

theorem emptyLayer_not_mem_summary (P : Prop) [Decidable P] (l : GLayer) :
    (Msg.emptyLayer l ∈ (if P then [Msg.curveSummary] else ([] : List Msg))) ↔ False := by
  split <;> simp

theorem emptyLayer_not_mem_saveList (c : Bool) (l l2 : GLayer) :
    (Msg.emptyLayer l2 ∈ (if c = true then [Msg.saveFailure l] else ([] : List Msg)))
      ↔ False := by
  cases c <;> simp

theorem exportFiles_char (env : ExportEnv) (l : GLayer) :
    (l ∈ (exportToGerberM env).2) ↔ fileCond env l = true := by
  have hsome : ∀ (c : Bool) (x : GLayer),
      ((some l = if c = true then some x else none)) ↔ (c = true ∧ x = l) := by
    intro c x
    cases c <;> simp [eq_comm]
  by_cases hb : env.boardLayers = 2 <;>
    cases ho : env.renderEmpty .outline <;>
      cases l <;>
        simp [exportToGerberM, fileCond, hb, ho, List.reduceOption_mem_iff,
          List.mem_append, doCopperM_file, doMaskM_file, doPasteMaskM_file,
          doSilkM_file, doDrillM_fileList, saveEndM_fileList, hsome,
          mem_ite_list1, mem_ite_list2, Bool.and_eq_true, Bool.not_eq_true']

theorem exportMsgs_char (env : ExportEnv) (l : GLayer) :
    (Msg.emptyLayer l ∈ (exportToGerberM env).1) ↔ emptyMsgCond env l = true := by
  by_cases hb : env.boardLayers = 2 <;>
    cases ho : env.renderEmpty .outline <;>
      cases l <;>
        simp [exportToGerberM, emptyMsgCond, hb, ho, List.mem_append,
          doCopperM_msg, doMaskM_msg, doPasteMaskM_msg, doSilkM_msg, doDrillM_msg,
          saveEndM_msgs, emptyLayer_not_mem_summary, emptyLayer_not_mem_saveList,
          Bool.and_eq_true, Bool.not_eq_true']

/-- C2 (amended): a layer file is written exactly under the per-layer
success condition — for non-outline layers an empty render skips only
that file and every other layer proceeds, but the outline and drill
files additionally require the outline render to be non-empty, because
an empty outline aborts the export before the drill layer; the
empty-layer diagnostic appears exactly for empty-rendered layers in the
sequence, except that a silkscreen layer reports it only when its
layer-id list contains the top silkscreen id, and the drill layer is
only reached when the outline rendered non-empty. -/
theorem exportToGerberM_spec (env : ExportEnv) (l : GLayer) :
    ((l ∈ (exportToGerberM env).2) ↔ fileCond env l = true) ∧
    ((Msg.emptyLayer l ∈ (exportToGerberM env).1) ↔ emptyMsgCond env l = true) :=
  ⟨exportFiles_char env l, exportMsgs_char env l⟩

/-- Counterexample for C2 as stated: in an environment where every
stage succeeds except that the outline layer renders empty, the drill
layer renders non-empty yet no drill file is written — the empty
outline layer prevents the drill layer from being exported (while the
copper file is still written and the outline empty-layer diagnostic is
recorded). -/
theorem exportToGerberM_cex :
    outlineEmptyEnv.renderEmpty .drill = false ∧
    Msg.emptyLayer .outline ∈ (exportToGerberM outlineEmptyEnv).1 ∧
    GLayer.drill ∉ (exportToGerberM outlineEmptyEnv).2 ∧
    GLayer.copper0 ∈ (exportToGerberM outlineEmptyEnv).2 := by
  refine ⟨by decide, by decide, by decide, by decide⟩

/-- C9: the pick-and-place mount-technology classification maps "TO-220"
to "THT", "TO-220-LEADLESS" to "SMT", the empty string to "MANUAL", and
"QFN-32" (matching no keyword) to "SMT". -/
theorem checkMountTechnology_spec_cases :
    checkMountTechnology "TO-220" = "THT" ∧
    checkMountTechnology "TO-220-LEADLESS" = "SMT" ∧
    checkMountTechnology "" = "MANUAL" ∧
    checkMountTechnology "QFN-32" = "SMT" := by
  refine ⟨?_, ?_, ?_, ?_⟩ <;> decide

end Gerber
